import Mathlib

/-!
Verification development for the "prompter" repository's request-orchestration
core (optimized API client: cache key builder, TTL cache, request deduplicator,
retrying transport, orchestrator) and its language-detection / translation
services.  JavaScript/TypeScript code is shallowly embedded: numbers used as
millisecond timestamps become `Nat`, floating-point scores and durations become
`ℚ`, `Promise` results become `Except`/`Option` values, network calls become
oracle parameters, and module-level mutable state becomes explicit state
records.
-/

namespace Prompter

/-! ## JavaScript string primitives

Models of the JavaScript string operations used by the source:
`trim`, `toLowerCase`, default `Array.prototype.sort` (lexicographic on UTF-16
code units), `String.prototype.includes`, and `JSON.stringify` of strings.
-/

/-- JS `\s`-style whitespace on the code points the repository can produce
(ASCII whitespace plus NBSP); used to model `String.prototype.trim`. -/
def isJsSpace (c : Char) : Bool :=
  c = ' ' || c = '\t' || c = '\n' || c = '\r' || c = '\x0b' || c = '\x0c' || c = ' '

/-- `String.prototype.trim` on a list of characters. -/
def jsTrimChars (s : List Char) : List Char :=
  ((s.dropWhile isJsSpace).reverse.dropWhile isJsSpace).reverse

/-- `String.prototype.trim`. -/
def jsTrim (s : String) : String := ⟨jsTrimChars s.data⟩

/-- `String.prototype.toLowerCase`, modelled on the character ranges the
repository works with: ASCII, Latin-1 letters, `Ÿ`, and Cyrillic. -/
def jsToLower (c : Char) : Char :=
  if 'A' ≤ c ∧ c ≤ 'Z' then Char.ofNat (c.toNat + 32)
  else if 'À' ≤ c ∧ c ≤ 'Þ' ∧ c ≠ '×' then Char.ofNat (c.toNat + 32)
  else if 'А' ≤ c ∧ c ≤ 'Я' then Char.ofNat (c.toNat + 32)
  else if c = 'Ё' then 'ё'
  else if c = 'Ÿ' then 'ÿ'
  else c

/-- `String.prototype.toLowerCase` on whole strings. -/
def jsToLowerStr (s : String) : String := ⟨s.data.map jsToLower⟩

/-- The UTF-16 encoding of a character, as the pair of code units JS string
comparison looks at (a BMP character is `(unit, 0)`; an astral character is
its surrogate pair, whose low half is always `≥ 0xDC00`). -/
def charKey (c : Char) : Nat × Nat :=
  if c.toNat < 0x10000 then (c.toNat, 0)
  else (0xD800 + (c.toNat - 0x10000) / 0x400, 0xDC00 + (c.toNat - 0x10000) % 0x400)

/-- Strict order of two characters under UTF-16 code-unit comparison. -/
def keyLtB (a b : Char) : Bool :=
  (charKey a).1 < (charKey b).1 ||
    ((charKey a).1 = (charKey b).1 && (charKey a).2 < (charKey b).2)

/-- `a ≤ b` for JS strings (lexicographic on UTF-16 code units), on the
underlying character lists. -/
def u16LeB : List Char → List Char → Bool
  | [], _ => true
  | _ :: _, [] => false
  | a :: as, b :: bs => keyLtB a b || (charKey a = charKey b && u16LeB as bs)

/-- JS default string comparison (`a ≤ b` over UTF-16 code units), as used by
`Array.prototype.sort` with no comparator. -/
def jsStrLe (a b : String) : Bool := u16LeB a.data b.data

/-- `Array.prototype.sort()` on an array of strings. -/
def jsSort (xs : List String) : List String := xs.mergeSort jsStrLe

/-- Char-list prefix test (case-sensitive). -/
def startsWithChars : List Char → List Char → Bool
  | _, [] => true
  | [], _ :: _ => false
  | c :: cs, n :: ns => c = n && startsWithChars cs ns

/-- `String.prototype.includes` on character lists. -/
def includesChars : List Char → List Char → Bool
  | t, needle =>
    if startsWithChars t needle then true
    else match t with
      | [] => false
      | _ :: ts => includesChars ts needle

/-- `String.prototype.includes`. -/
def jsIncludes (s needle : String) : Bool := includesChars s.data needle.data

/-- Escape of one character inside a JSON string literal
(`JSON.stringify` semantics for the control and quote characters). -/
def jsonEscapeChar (c : Char) : List Char :=
  if c = '"' then ['\\', '"']
  else if c = '\\' then ['\\', '\\']
  else if c = '\n' then ['\\', 'n']
  else if c = '\r' then ['\\', 'r']
  else if c = '\t' then ['\\', 't']
  else if c = '\x08' then ['\\', 'b']
  else if c = '\x0c' then ['\\', 'f']
  else if c.toNat < 0x20 then
    ['\\', 'u', '0', '0', (Nat.digitChar (c.toNat / 16)), (Nat.digitChar (c.toNat % 16))]
  else [c]

/-- `JSON.stringify` of a string value. -/
def jsonStr (s : String) : String :=
  ⟨'"' :: (s.data.flatMap jsonEscapeChar) ++ ['"']⟩

/-- `JSON.stringify` of an array of strings. -/
def jsonArr (xs : List String) : String :=
  "[" ++ String.intercalate "," (xs.map jsonStr) ++ "]"

/-! ## Data model (`src/types`, optimized API client interfaces)

Millisecond timestamps (`Date.now()`) are `Nat`; sub-millisecond performance
timestamps (`performance.now()`) and float confidences are `ℚ`. -/

structure TechStack where
  frontend : List String
  backend : List String
  database : List String
  tools : List String
  uiComponents : List String
  deriving Repr, DecidableEq

structure EnhancePromptParams where
  userInput : String
  wordLimit : Nat
  selectorPath : Option String
  techStack : TechStack
  deriving Repr, DecidableEq

/-- The `translation` payload shape shared by `ApiResponse["translation"]` and
the translation service's `TranslationResult`. -/
structure TranslationResult where
  originalText : String
  translatedText : String
  originalLanguage : String
  originalLanguageName : String
  wasTranslated : Bool
  confidence : ℚ
  deriving Repr, DecidableEq

structure PerformanceMetrics where
  startTime : ℚ
  endTime : ℚ
  duration : ℚ
  cacheHit : Bool
  fromTranslationCache : Bool
  error : Option String
  deriving Repr, DecidableEq

structure EnhancedResult where
  yaml : String
  translation : Option TranslationResult
  metrics : PerformanceMetrics
  fromCache : Bool
  deriving Repr, DecidableEq

/-- A successfully parsed `/api/enhance` response body (`yaml?`, `error?`,
`translation?`). -/
structure ApiResponse where
  yaml : Option String
  error : Option String
  translation : Option TranslationResult
  deriving Repr, DecidableEq

-- Configuration constants of the optimized API client
def CACHE_TTL : Nat := 5 * 60 * 1000
def MAX_CACHE_SIZE : Nat := 100
def MAX_RETRIES : Nat := 3
def RETRY_DELAY : ℚ := 1000
def REQUEST_TIMEOUT : Nat := 30000

/-! ## JS `Map` semantics

A JS `Map` iterates in key-insertion order; `set` of an existing key updates
the value in place, `set` of a new key appends, `delete` removes the entry,
and `keys().next().value` is the first (oldest-inserted) key.  Modelled as an
association list. -/

def mapGet {κ β : Type} [DecidableEq κ] (k : κ) : List (κ × β) → Option β
  | [] => none
  | (a, b) :: t => if a = k then some b else mapGet k t

def mapSet {κ β : Type} [DecidableEq κ] (k : κ) (v : β) : List (κ × β) → List (κ × β)
  | [] => [(k, v)]
  | (a, b) :: t => if a = k then (k, v) :: t else (a, b) :: mapSet k v t

/-- `Map.delete`.  A JS `Map` holds each key at most once, so removing every
entry with key `k` coincides with removing the entry for `k`. -/
def mapDelete {κ β : Type} [DecidableEq κ] (k : κ) : List (κ × β) → List (κ × β)
  | [] => []
  | (a, b) :: t => if a = k then mapDelete k t else (a, b) :: mapDelete k t

/-! ## Fingerprint builder (`createCacheKey`)

`JSON.stringify` of the normalized request: trimmed/lowercased free-text
fields, each tech-stack category copied and sorted with the default JS sort.
Serialization order is the object-literal insertion order. -/

/-- `params.selectorPath?.trim().toLowerCase() || ''`. -/
def normSelectorPath : Option String → String
  | some s =>
    let t := jsToLowerStr (jsTrim s)
    if t = "" then "" else t
  | none => ""

def createCacheKey (params : EnhancePromptParams) : String :=
  "\x7b\"input\":" ++ jsonStr (jsToLowerStr (jsTrim params.userInput)) ++
  ",\"wordLimit\":" ++ toString params.wordLimit ++
  ",\"selectorPath\":" ++ jsonStr (normSelectorPath params.selectorPath) ++
  ",\"techStack\":\x7b\"frontend\":" ++ jsonArr (jsSort params.techStack.frontend) ++
  ",\"backend\":" ++ jsonArr (jsSort params.techStack.backend) ++
  ",\"database\":" ++ jsonArr (jsSort params.techStack.database) ++
  ",\"tools\":" ++ jsonArr (jsSort params.techStack.tools) ++
  ",\"uiComponents\":" ++ jsonArr (jsSort params.techStack.uiComponents) ++
  "\x7d\x7d"

/-- The normalized content of a request, in the spec's words ("trimmed,
lowercased free-text fields and sorted category lists"); `createCacheKey` is
its deterministic serialization. -/
def normalizedContent (params : EnhancePromptParams) :
    String × Nat × String × List String × List String × List String × List String × List String :=
  (jsToLowerStr (jsTrim params.userInput), params.wordLimit,
    normSelectorPath params.selectorPath,
    jsSort params.techStack.frontend, jsSort params.techStack.backend,
    jsSort params.techStack.database, jsSort params.techStack.tools,
    jsSort params.techStack.uiComponents)

/-! ## TTL cache (`APICache`) and module-level counters

The module keeps one `APICache` instance plus hit/miss counters and a
performance history; all of that mutable module state is gathered into
`ClientState`.  `Date.now()` is passed explicitly as `now`. -/

structure CacheEntry where
  data : EnhancedResult
  timestamp : Nat
  ttl : Nat
  deriving Repr, DecidableEq

structure ClientState where
  cache : List (String × CacheEntry)
  maxSize : Nat
  cacheHitCount : Nat
  cacheMissCount : Nat
  performanceHistory : List PerformanceMetrics
  deriving Repr, DecidableEq

/-- `APICache.set`: evict the oldest-inserted entry when at capacity, then
insert. -/
def apiCacheSet (st : ClientState) (now : Nat) (key : String) (data : EnhancedResult)
    (ttl : Nat) : ClientState :=
  let c :=
    if st.cache.length ≥ st.maxSize then
      match st.cache.head? with
      | some (firstKey, _) => mapDelete firstKey st.cache
      | none => st.cache
    else st.cache
  { st with cache := mapSet key ⟨data, now, ttl⟩ c }

/-- `APICache.get`: returns `none` (and lazily evicts) when the entry has
expired, i.e. when `now - timestamp > ttl`. -/
def apiCacheGet (st : ClientState) (now : Nat) (key : String) :
    Option EnhancedResult × ClientState :=
  match mapGet key st.cache with
  | none => (none, { st with cacheMissCount := st.cacheMissCount + 1 })
  | some entry =>
    if now - entry.timestamp > entry.ttl then
      (none, { st with cache := mapDelete key st.cache,
                       cacheMissCount := st.cacheMissCount + 1 })
    else
      (some entry.data, { st with cacheHitCount := st.cacheHitCount + 1 })

/-- `APICache.clear`. -/
def apiCacheClear (st : ClientState) : ClientState := { st with cache := [] }

/-- `APICache.size`. -/
def apiCacheSize (st : ClientState) : Nat := st.cache.length

/-- `APICache.cleanup`: drop every expired entry. -/
def apiCacheCleanup (st : ClientState) (now : Nat) : ClientState :=
  { st with cache := st.cache.filter (fun kv => ¬(now - kv.2.timestamp > kv.2.ttl)) }

/-! ## Request deduplicator (`RequestDeduplicator`)

`pendingRequests : Map<string, Promise<...>>` becomes a map from key to a
promise identifier; a promise's eventual outcome is recorded when it settles.
`deduplicate(key, fn)` returns the registered promise when one is in flight,
otherwise invokes `fn` (logged in `invocations`), registers the fresh promise
under `key`, and arranges (`.finally`) for the registration to be deleted on
settlement — success and failure alike. -/

structure DedupState (ε α : Type) where
  pending : List (String × Nat)
  settledOutcomes : List (Nat × Except ε α)
  invocations : List (String × Nat)
  nextId : Nat
  deriving Repr

/-- `RequestDeduplicator.deduplicate`: returns the state after the call and
the promise the caller awaits. -/
def deduplicate {ε α : Type} (s : DedupState ε α) (key : String) : DedupState ε α × Nat :=
  match mapGet key s.pending with
  | some p => (s, p)
  | none =>
    let p := s.nextId
    ({ pending := mapSet key p s.pending
       settledOutcomes := s.settledOutcomes
       invocations := s.invocations ++ [(key, p)]
       nextId := p + 1 }, p)

/-- Settlement of the in-flight promise for `key` with outcome `o` (success or
failure): the outcome is recorded for every awaiting caller and the `.finally`
handler deletes the registration, unconditionally on the outcome. -/
def settleKey {ε α : Type} (s : DedupState ε α) (key : String) (o : Except ε α) :
    DedupState ε α :=
  match mapGet key s.pending with
  | some p =>
    { s with pending := mapDelete key s.pending
             settledOutcomes := mapSet p o s.settledOutcomes }
  | none => s

/-- The outcome a caller awaiting promise `p` receives once it is settled. -/
def outcomeOf {ε α : Type} (s : DedupState ε α) (p : Nat) : Option (Except ε α) :=
  mapGet p s.settledOutcomes

/-! ## Retrying transport (client `makeRequest`)

One `fetch("/api/enhance", ...)` attempt is an oracle value `FetchResult`
indexed by the attempt number.  A timeout fires the per-attempt
`AbortController`, making `fetch` reject with an `AbortError`.  Other
rejections, non-2xx statuses, an application-level `error` field, and a
missing/empty `yaml` are all thrown inside the `try`, caught by the same
`catch`, and retried while `attempt < MAX_RETRIES`.  `Math.random() * 1000`
jitter is an oracle `jitter` indexed by the attempt. -/

inductive FetchResult where
  /-- `fetch` rejected with an `AbortError` (the 30s timeout fired). -/
  | abort : FetchResult
  /-- `fetch` rejected with a network-level error. -/
  | netError (msg : String) : FetchResult
  /-- `!response.ok`: HTTP failure status, with the optional parsed
  `errorData.error` field of its JSON body. -/
  | httpError (status : Nat) (errField : Option String) : FetchResult
  /-- 2xx with JSON body `data`. -/
  | ok (data : ApiResponse) : FetchResult
  deriving Repr, DecidableEq

/-- The message of the error thrown inside the `try` block for a given fetch
outcome, or `none` when `makeRequest` returns normally.  (An empty-string
`yaml` is falsy in JS, so it is rejected together with a missing one.) -/
def thrownMessage : FetchResult → Option String
  | .abort => none
  | .netError msg => some msg
  | .httpError status errField =>
    some (errField.getD ("API request failed with status " ++ toString status))
  | .ok data =>
    match data.error with
    | some e => some e
    | none => if data.yaml.getD "" = "" then some "The API returned an empty response." else none

/-- Events of one logical `makeRequest` call: fetch attempts and backoff
sleeps. -/
inductive ReqEvent where
  | attempt (n : Nat) : ReqEvent
  | sleep (ms : ℚ) : ReqEvent
  deriving Repr, DecidableEq

/-- `getRetryDelay`: exponential backoff `RETRY_DELAY * 2^(attempt-1)` plus
random jitter in `[0, 1000)`. -/
def getRetryDelay (jitter : Nat → ℚ) (attempt : Nat) : ℚ :=
  RETRY_DELAY * 2 ^ (attempt - 1) + jitter attempt

/-- `makeRequest(params, attempt)`: result plus the trace of attempts and
sleeps.  An `AbortError` (timeout) is converted to the
"Request timeout" error and never retried; every other failure is retried
with backoff until `attempt >= MAX_RETRIES`. -/
def makeRequestFrom (f : Nat → FetchResult) (jitter : Nat → ℚ) (attempt : Nat) :
    Except String ApiResponse × List ReqEvent :=
  match f attempt with
  | .abort => (.error "Request timeout - please try again", [.attempt attempt])
  | .ok data =>
    match thrownMessage (.ok data) with
    | none => (.ok data, [.attempt attempt])
    | some msg =>
      if h : MAX_RETRIES ≤ attempt then (.error msg, [.attempt attempt])
      else
        let rest := makeRequestFrom f jitter (attempt + 1)
        (rest.1, .attempt attempt :: .sleep (getRetryDelay jitter attempt) :: rest.2)
  | .netError msg =>
    if h : MAX_RETRIES ≤ attempt then (.error msg, [.attempt attempt])
    else
      let rest := makeRequestFrom f jitter (attempt + 1)
      (rest.1, .attempt attempt :: .sleep (getRetryDelay jitter attempt) :: rest.2)
  | .httpError status errField =>
    let msg := errField.getD ("API request failed with status " ++ toString status)
    if h : MAX_RETRIES ≤ attempt then (.error msg, [.attempt attempt])
    else
      let rest := makeRequestFrom f jitter (attempt + 1)
      (rest.1, .attempt attempt :: .sleep (getRetryDelay jitter attempt) :: rest.2)
  termination_by MAX_RETRIES - attempt
  decreasing_by all_goals omega

/-- `makeRequest(params)` (the default entry point starts at attempt 1). -/
def makeRequest (f : Nat → FetchResult) (jitter : Nat → ℚ) :
    Except String ApiResponse × List ReqEvent :=
  makeRequestFrom f jitter 1

/-! ## Retrying transport (server `requestWithRetry`) -/

/-- Upstream Grok API `error?: { message?, type? }` and
`choices?.[0]?.message?.content` (flattened to the optional content the route
reads). -/
structure GrokResponse where
  content : Option String
  error : Option (Option String)
  deriving Repr, DecidableEq

inductive ServerFetch where
  | ok (payload : GrokResponse) : ServerFetch
  | httpError (status : Nat) (text : String) : ServerFetch
  | netError (msg : String) : ServerFetch
  deriving Repr, DecidableEq

/-- One iteration: the error message reaching the `catch` block, if any. -/
def serverThrownMessage : ServerFetch → Option String
  | .ok payload =>
    match payload.error with
    | some m => some (m.getD "Unknown API error")
    | none => none
  | .httpError status text => some ("API error " ++ toString status ++ ": " ++ text)
  | .netError msg => some msg

/-- `requestWithRetry` body, from loop counter `attempt` (1-based).  A 429
status with budget left sleeps `delay * attempt` and continues inside the
`try`; every other thrown error is caught, re-thrown on the last attempt, and
otherwise also waits `delay * attempt` before the next iteration. -/
def requestWithRetryFrom (f : Nat → ServerFetch) (attempts : Nat) (delay : ℚ)
    (attempt : Nat) : Except String GrokResponse × List ReqEvent :=
  if _h : attempts < attempt then
    (.error "Unable to complete request to Grok API", [])
  else
    match f attempt with
    | .ok payload =>
      match serverThrownMessage (.ok payload) with
      | none => (.ok payload, [.attempt attempt])
      | some msg =>
        if attempt = attempts then (.error msg, [.attempt attempt])
        else
          let rest := requestWithRetryFrom f attempts delay (attempt + 1)
          (rest.1, .attempt attempt :: .sleep (delay * attempt) :: rest.2)
    | .httpError status text =>
      if status = 429 ∧ attempt < attempts then
        let rest := requestWithRetryFrom f attempts delay (attempt + 1)
        (rest.1, .attempt attempt :: .sleep (delay * attempt) :: rest.2)
      else
        if attempt = attempts then
          (.error ("API error " ++ toString status ++ ": " ++ text), [.attempt attempt])
        else
          let rest := requestWithRetryFrom f attempts delay (attempt + 1)
          (rest.1, .attempt attempt :: .sleep (delay * attempt) :: rest.2)
    | .netError msg =>
      if attempt = attempts then (.error msg, [.attempt attempt])
      else
        let rest := requestWithRetryFrom f attempts delay (attempt + 1)
        (rest.1, .attempt attempt :: .sleep (delay * attempt) :: rest.2)
  termination_by attempts + 1 - attempt
  decreasing_by all_goals omega

/-- `requestWithRetry(request)` with the default `attempts = 3`,
`delay = 750`. -/
def requestWithRetry (f : Nat → ServerFetch) : Except String GrokResponse × List ReqEvent :=
  requestWithRetryFrom f 3 750 1

/-! ## Orchestrator (`enhancePromptOptimized`)

Cache check, then the deduplicated transport call: on success the result is
cached under the fingerprint and recorded in the performance history, on
failure the error metrics are recorded and the error is rethrown.  The
deduplicator's collapsing of concurrent callers is modelled separately
(`deduplicate`/`settleKey`); here one caller's pass is a state transformer
whose transport outcome is `(makeRequest f jitter).1`. -/

/-- Append to `performanceHistory`, keeping only the last 1000 entries. -/
def pushHistory (st : ClientState) (m : PerformanceMetrics) : ClientState :=
  let h := st.performanceHistory ++ [m]
  { st with performanceHistory := if h.length > 1000 then h.drop (h.length - 1000) else h }

def enhancePromptOptimized (st : ClientState) (params : EnhancePromptParams)
    (f : Nat → FetchResult) (jitter : Nat → ℚ) (now : Nat) (startTime endTime : ℚ) :
    Except String EnhancedResult × ClientState :=
  let cacheKey := createCacheKey params
  match apiCacheGet st now cacheKey with
  | (some cachedResult, st1) =>
    (.ok { cachedResult with
            metrics := { startTime := startTime, endTime := endTime,
                         duration := endTime - startTime, cacheHit := true,
                         fromTranslationCache := false, error := none }
            fromCache := true }, st1)
  | (none, st1) =>
    match (makeRequest f jitter).1 with
    | .ok response =>
      let metrics : PerformanceMetrics :=
        { startTime := startTime, endTime := endTime, duration := endTime - startTime,
          cacheHit := false, fromTranslationCache := false, error := none }
      let result : EnhancedResult :=
        { yaml := response.yaml.getD "", translation := response.translation,
          metrics := metrics, fromCache := false }
      let st2 := apiCacheSet st1 now cacheKey result CACHE_TTL
      (.ok result, pushHistory st2 metrics)
    | .error e =>
      let metrics : PerformanceMetrics :=
        { startTime := startTime, endTime := endTime, duration := endTime - startTime,
          cacheHit := false, fromTranslationCache := false, error := some e }
      (.error e, pushHistory st1 metrics)

/-! ## Language detection (`language-detection.ts`)

Each entry of `LANGUAGE_PATTERNS` is one JS regex; `text.match(pattern)`
yields a match count.  The regexes fall into four shapes:

* `/\b(w1|w2|...)\b/g(i)` — a global word-alternation with `\b` boundaries.
  JS `\b` is a transition between `\w = [A-Za-z0-9_]` and non-word
  characters (so non-Latin scripts never produce a word boundary), `i`
  canonicalizes case, alternatives are tried left to right, and matching
  resumes after each match.
* `/[...]/(i)` — a non-global character class: `match` returns exactly one
  element when any character of the text is in the class, else `null`.
* `/^[...]+$/` — a non-global anchored class: one match when the text is
  nonempty and entirely inside the class.
* `/\?$/` — one match when the text ends in `?`.

Each embedded pattern also carries its JS `source` text, because
`detectLanguage` inspects `pattern.source.includes(...)` to weight scores.
-/

/-- JS `\w`. -/
def jsWordChar (c : Char) : Bool :=
  ('a' ≤ c && c ≤ 'z') || ('A' ≤ c && c ≤ 'Z') || ('0' ≤ c && c ≤ '9') || c = '_'

def optWordChar : Option Char → Bool
  | none => false
  | some c => jsWordChar c

/-- JS `\b` between an optional previous and current character. -/
def isBoundary (prev cur : Option Char) : Bool := optWordChar prev != optWordChar cur

/-- Consume the remaining characters of a word case-insensitively, returning
the rest of the text and the last text character consumed. -/
def consumeWord : List Char → List Char → Char → Option (List Char × Char)
  | [], t, last => some (t, last)
  | _ :: _, [], _ => none
  | wc :: ws, tc :: ts, _ =>
    if jsToLower wc = jsToLower tc then consumeWord ws ts tc else none

/-- Try to match one (nonempty) alternative at the current position. -/
def tryWord (w t : List Char) : Option (List Char × Char) :=
  match w, t with
  | wc :: ws, tc :: ts => if jsToLower wc = jsToLower tc then consumeWord ws ts tc else none
  | _, _ => none

/-- Try the alternatives in order; an alternative succeeds when it matches
and is followed by a `\b` boundary (otherwise the engine moves to the next
alternative). -/
def tryWords (ws : List (List Char)) (t : List Char) : Option (List Char × Char) :=
  match ws with
  | [] => none
  | w :: rest =>
    match tryWord w t with
    | some (r, lastc) =>
      if isBoundary (some lastc) r.head? then some (r, lastc) else tryWords rest t
    | none => tryWords rest t

/-- Scan of a global `\b(...)\b` regex: at each position with a start
boundary try the alternatives; on a match continue after it, otherwise
advance one character.  The `fuel` argument is only a structural-recursion
bound: every step consumes at least one character, so starting the scan with
`fuel = t.length` never exhausts it (`countWordsGo_congr`). -/
def countWordsGo (ws : List (List Char)) : Nat → List Char → Option Char → Nat
  | 0, _, _ => 0
  | _ + 1, [], _ => 0
  | fuel + 1, c :: cs, prev =>
    if isBoundary prev (some c) then
      match tryWords ws (c :: cs) with
      | some (rest, lastc) => 1 + countWordsGo ws fuel rest (some lastc)
      | none => countWordsGo ws fuel cs (some c)
    else countWordsGo ws fuel cs (some c)

/-- `text.match(/\b(w1|w2|...)\b/gi).length` (0 when `null`). -/
def countWordMatches (words : List String) (t : List Char) : Nat :=
  countWordsGo (words.map String.data) t.length t none

/-- `text.match(/[...]/)` (or `/[...]/i`): one match when any character is in
the class. -/
def countAny (cls : Char → Bool) (t : List Char) : Nat := if t.any cls then 1 else 0

/-- `text.match(/^[...]+$/)`: one match when the text is nonempty and all of
it lies in the class. -/
def countFullClass (cls : Char → Bool) (t : List Char) : Nat :=
  if t ≠ [] ∧ t.all cls then 1 else 0

/-- `text.match(/\?$/)`. -/
def countEndsInQuestion (t : List Char) : Nat := if t.getLast? = some '?' then 1 else 0

/-- One entry of a `LANGUAGE_PATTERNS` list: the regex `source` text plus its
match-count semantics. -/
structure LangPattern where
  src : String
  count : List Char → Nat

def wordPat (src : String) (words : List String) : LangPattern :=
  ⟨src, countWordMatches words⟩

def anyPat (src : String) (cls : Char → Bool) : LangPattern := ⟨src, countAny cls⟩

def fullPat (src : String) (cls : Char → Bool) : LangPattern := ⟨src, countFullClass cls⟩

def endsQPat (src : String) : LangPattern := ⟨src, countEndsInQuestion⟩

/-- Code-point range test. -/
def inRange (lo hi : Nat) (c : Char) : Bool := lo ≤ c.toNat && c.toNat ≤ hi

/-- Case-canonicalized membership in a list of (lowercase) characters, for a
class with the `i` flag. -/
def inCharsCI (cs : List Char) (c : Char) : Bool := cs.contains (jsToLower c)

/-- Plain membership, for a class without the `i` flag. -/
def inChars (cs : List Char) (c : Char) : Bool := cs.contains c

/-- The characters JS `\s` can match in this repository's inputs. -/
def isJsSpaceClass (c : Char) : Bool := isJsSpace c

/-- The anchored English text class `[a-zA-Z0-9\s.,!?;:'"-]`. -/
def enTextClass (c : Char) : Bool :=
  ('a' ≤ c && c ≤ 'z') || ('A' ≤ c && c ≤ 'Z') || ('0' ≤ c && c ≤ '9') ||
    isJsSpaceClass c || inChars ['.', ',', '!', '?', ';', ':', '\x27', '"', '-'] c

/-- `LANGUAGE_PATTERNS`, in object-literal insertion order. -/
def LANGUAGE_PATTERNS : List (String × List LangPattern) :=
  [ ("en",
      [ wordPat "\\b(the|and|or|but|in|on|at|to|for|of|with|by|from|up|about|into|through|during|before|after|above|below|between|among|under|over|above)\\b"
          ["the", "and", "or", "but", "in", "on", "at", "to", "for", "of", "with", "by",
            "from", "up", "about", "into", "through", "during", "before", "after",
            "above", "below", "between", "among", "under", "over", "above"],
        wordPat "\\b(what|where|when|why|how|who|which|whose|do|does|did|can|could|will|would|should|may|might|must|shall|ought|need|dare)\\b"
          ["what", "where", "when", "why", "how", "who", "which", "whose", "do", "does",
            "did", "can", "could", "will", "would", "should", "may", "might", "must",
            "shall", "ought", "need", "dare"],
        wordPat "\\b(a|an|the|is|are|was|were|be|been|being|have|has|had|do|does|did)\\b"
          ["a", "an", "the", "is", "are", "was", "were", "be", "been", "being", "have",
            "has", "had", "do", "does", "did"],
        fullPat "^[a-zA-Z0-9\\s.,!?;:\x27\"-]+$" enTextClass ]),
    ("es",
      [ wordPat "\\b(el|la|los|las|un|una|unos|unas|y|o|pero|si|no|en|de|del|por|para|con|sin|sobre|entre|hasta|hacia)\\b"
          ["el", "la", "los", "las", "un", "una", "unos", "unas", "y", "o", "pero", "si",
            "no", "en", "de", "del", "por", "para", "con", "sin", "sobre", "entre",
            "hasta", "hacia"],
        anyPat "[ñáéíóúü]" (inCharsCI ['ñ', 'á', 'é', 'í', 'ó', 'ú', 'ü']),
        wordPat "\\b(qué|dónde|cuándo|por qué|cómo|quién|cuál|cuánto)\\b"
          ["qué", "dónde", "cuándo", "por qué", "cómo", "quién", "cuál", "cuánto"],
        endsQPat "\\?$",
        anyPat "[áéíóúüñÁÉÍÓÚÜÑ]"
          (inChars ['á', 'é', 'í', 'ó', 'ú', 'ü', 'ñ', 'Á', 'É', 'Í', 'Ó', 'Ú', 'Ü', 'Ñ']) ]),
    ("fr",
      [ wordPat "\\b(le|la|les|un|une|des|et|ou|mais|si|ne|pas|dans|de|du|par|pour|avec|sans|sur|entre|jusque|vers)\\b"
          ["le", "la", "les", "un", "une", "des", "et", "ou", "mais", "si", "ne", "pas",
            "dans", "de", "du", "par", "pour", "avec", "sans", "sur", "entre", "jusque",
            "vers"],
        anyPat "[àâäéèêëïîôöùûüÿç]"
          (inCharsCI ['à', 'â', 'ä', 'é', 'è', 'ê', 'ë', 'ï', 'î', 'ô', 'ö', 'ù', 'û', 'ü', 'ÿ', 'ç']),
        wordPat "\\b(quoi|où|quand|pourquoi|comment|qui|lequel|combien)\\b"
          ["quoi", "où", "quand", "pourquoi", "comment", "qui", "lequel", "combien"],
        wordPat "\\b(est-ce-que|qu\x27est-ce que)\\b" ["est-ce-que", "qu\x27est-ce que"] ]),
    ("de",
      [ wordPat "\\b(der|die|das|den|dem|des|ein|eine|einen|einem|eines|und|oder|aber|wenn|nicht|in|an|zu|für|mit|ohne|auf|unter|über)\\b"
          ["der", "die", "das", "den", "dem", "des", "ein", "eine", "einen", "einem",
            "eines", "und", "oder", "aber", "wenn", "nicht", "in", "an", "zu", "für",
            "mit", "ohne", "auf", "unter", "über"],
        anyPat "[äöüßÄÖÜ]" (inCharsCI ['ä', 'ö', 'ü', 'ß']),
        wordPat "\\b(was|wo|wann|warum|wie|wer|welcher|wieviel)\\b"
          ["was", "wo", "wann", "warum", "wie", "wer", "welcher", "wieviel"] ]),
    ("it",
      [ wordPat "\\b(il|lo|la|le|gli|un|uno|una|e|o|ma|se|non|in|a|da|di|del|per|con|senza|su|tra|fra)\\b"
          ["il", "lo", "la", "le", "gli", "un", "uno", "una", "e", "o", "ma", "se",
            "non", "in", "a", "da", "di", "del", "per", "con", "senza", "su", "tra", "fra"],
        anyPat "[àèéìíîòóù]" (inCharsCI ['à', 'è', 'é', 'ì', 'í', 'î', 'ò', 'ó', 'ù']),
        wordPat "\\b(che|cosa|dove|quando|perché|come|chi|quale|quanto)\\b"
          ["che", "cosa", "dove", "quando", "perché", "come", "chi", "quale", "quanto"] ]),
    ("pt",
      [ wordPat "\\b(o|a|os|as|um|uma|uns|umas|e|ou|mas|se|não|em|de|do|por|para|com|sem|sobre|entre|até|para)\\b"
          ["o", "a", "os", "as", "um", "uma", "uns", "umas", "e", "ou", "mas", "se",
            "não", "em", "de", "do", "por", "para", "com", "sem", "sobre", "entre",
            "até", "para"],
        anyPat "[ãâáàéêíóôõúç]"
          (inCharsCI ['ã', 'â', 'á', 'à', 'é', 'ê', 'í', 'ó', 'ô', 'õ', 'ú', 'ç']),
        wordPat "\\b(o|que|onde|quando|por que|como|quem|qual|quanto)\\b"
          ["o", "que", "onde", "quando", "por que", "como", "quem", "qual", "quanto"] ]),
    ("ru",
      [ anyPat "[а-яё]"
          (fun c => inRange 0x430 0x44f (jsToLower c) || jsToLower c = 'ё'),
        wordPat "\\b(и|или|но|если|не|в|на|с|по|к|от|из|под|над|за|для|без|через|сквозь|около)\\b"
          ["и", "или", "но", "если", "не", "в", "на", "с", "по", "к", "от", "из",
            "под", "над", "за", "для", "без", "через", "сквозь", "около"],
        wordPat "\\b(что|где|когда|почему|как|кто|который|сколько)\\b"
          ["что", "где", "когда", "почему", "как", "кто", "который", "сколько"] ]),
    ("zh",
      [ anyPat "[\\u4e00-\\u9fff]" (inRange 0x4e00 0x9fff),
        wordPat "\\b(什么|哪里|什么时候|为什么|如何|谁|哪个|多少)\\b"
          ["什么", "哪里", "什么时候", "为什么", "如何", "谁", "哪个", "多少"],
        anyPat "[\\u3000-\\u303f\\uff00-\\uffef]"
          (fun c => inRange 0x3000 0x303f c || inRange 0xff00 0xffef c) ]),
    ("ja",
      [ anyPat "[\\u3040-\\u309f]" (inRange 0x3040 0x309f),
        anyPat "[\\u30a0-\\u30ff]" (inRange 0x30a0 0x30ff),
        anyPat "[\\u4e00-\\u9fff]" (inRange 0x4e00 0x9fff),
        wordPat "\\b(何|どこ|いつ|なぜ|どのように|誰|どれ|いくら)\\b"
          ["何", "どこ", "いつ", "なぜ", "どのように", "誰", "どれ", "いくら"] ]),
    ("ko",
      [ anyPat "[\\uac00-\\ud7af]" (inRange 0xac00 0xd7af),
        wordPat "\\b(무엇|어디서|언제|왜|어떻게|누가|어떤|얼마나)\\b"
          ["무엇", "어디서", "언제", "왜", "어떻게", "누가", "어떤", "얼마나"] ]),
    ("ar",
      [ anyPat "[\\u0600-\\u06ff]" (inRange 0x600 0x6ff),
        wordPat "\\b(ماذا|أين|متى|لماذا|كيف|من|أي|كم)\\b"
          ["ماذا", "أين", "متى", "لماذا", "كيف", "من", "أي", "كم"] ]),
    ("hi",
      [ anyPat "[\\u0900-\\u097f]" (inRange 0x900 0x97f),
        wordPat "\\b(क्या|कहां|कब|क्यों|कैसे|कौन|कौन सा|कितना)\\b"
          ["क्या", "कहां", "कब", "क्यों", "कैसे", "कौन", "कौन सा", "कितना"] ]) ]

def CONFIDENCE_THRESHOLD : ℚ := 3 / 10

/-- The per-match weighting of `detectLanguage`.  The needles passed to
`pattern.source.includes(...)` are written with doubled backslashes in the
source (`'\\\\b(the|and|or|but)'` etc.), so they are compared against regex
source texts that contain single backslashes. -/
def weightMatches (lang : String) (p : LangPattern) (n : Nat) : Nat :=
  if lang = "en" && jsIncludes p.src "\\\\b(the|and|or|but)" then n * 2
  else if jsIncludes p.src "[\\\\u4e00-\\\\u9fff]" || jsIncludes p.src "[\\\\u0600-\\\\u06ff]" ||
      jsIncludes p.src "[\\\\u0900-\\\\u097f]" then n * 3
  else n

/-- The raw (pre-normalization) score of one language on the cleaned text. -/
def languageScoreNat (lang : String) (ps : List LangPattern) (t : List Char) : Nat :=
  ps.foldl (fun score p => score + weightMatches lang p (p.count t)) 0

/-- All languages' raw scores, in iteration order. -/
def languageScoresNat (t : List Char) : List (String × Nat) :=
  LANGUAGE_PATTERNS.map (fun lp => (lp.1, languageScoreNat lp.1 lp.2 t))

structure LanguageDetectionResult where
  language : String
  confidence : ℚ
  isEnglish : Bool
  needsTranslation : Bool
  deriving Repr, DecidableEq

/-- `detectLanguage`: score every language, normalize by text length, pick
the first strict maximum (starting from `('unknown', 0)`), and flag
translation when the winner is non-English with score above the
threshold. -/
def detectLanguage (text : String) : LanguageDetectionResult :=
  if text = "" ∨ (jsTrim text).length = 0 then
    { language := "unknown", confidence := 0, isEnglish := false, needsTranslation := false }
  else
    let cleanText := (jsTrim text).data
    let textLength : Nat := cleanText.length
    let scores : List (String × ℚ) :=
      (languageScoresNat cleanText).map (fun ls => (ls.1, (ls.2 : ℚ) / (textLength : ℚ)))
    let best := scores.foldl (fun acc ls => if ls.2 > acc.2 then ls else acc) ("unknown", 0)
    let isEnglish : Bool := best.1 = "en"
    { language := best.1
      confidence := best.2
      isEnglish := isEnglish
      needsTranslation := !isEnglish && best.2 > CONFIDENCE_THRESHOLD }

/-- `getLanguageName`. -/
def getLanguageName (code : String) : String :=
  (mapGet code
    [("en", "English"), ("es", "Spanish"), ("fr", "French"), ("de", "German"),
      ("it", "Italian"), ("pt", "Portuguese"), ("ru", "Russian"), ("zh", "Chinese"),
      ("ja", "Japanese"), ("ko", "Korean"), ("ar", "Arabic"), ("hi", "Hindi"),
      ("unknown", "Unknown")]).getD "Unknown"

/-! ## Translation service (`translation.ts`)

`translateWithGrok` and `translateWithGoogle` are network calls; their
results are oracle parameters `grok google : Option String` (`none` models a
`null` return, which includes every internal failure).  `translateWithRules`
is pure and embedded; its `new RegExp(foreign, 'gi')` replacement acts on the
already-lowercased text with lowercase patterns, which is global literal
replacement. -/

/-- `commonTranslations`, in object-literal insertion order. -/
def commonTranslations : List (String × List (String × String)) :=
  [ ("es",
      [ ("crear", "create"), ("mostrar", "show"), ("ocultar", "hide"),
        ("actualizar", "update"), ("eliminar", "delete"), ("añadir", "add"),
        ("buscar", "search"), ("guardar", "save"), ("cancelar", "cancel"),
        ("continuar", "continue"), ("página", "page"), ("formulario", "form"),
        ("botón", "button"), ("enlace", "link"), ("lista", "list"), ("tabla", "table"),
        ("menú", "menu"), ("usuario", "user"), ("contraseña", "password"),
        ("correo", "email"), ("teléfono", "phone"), ("dirección", "address"),
        ("nombre", "name"), ("descripción", "description"), ("título", "title"),
        ("contenido", "content") ]),
    ("fr",
      [ ("créer", "create"), ("afficher", "show"), ("cacher", "hide"),
        ("mettre à jour", "update"), ("supprimer", "delete"), ("ajouter", "add"),
        ("rechercher", "search"), ("enregistrer", "save"), ("annuler", "cancel"),
        ("continuer", "continue"), ("page", "page"), ("formulaire", "form"),
        ("bouton", "button"), ("lien", "link"), ("liste", "list"), ("tableau", "table"),
        ("menu", "menu"), ("utilisateur", "user"), ("mot de passe", "password"),
        ("email", "email"), ("téléphone", "phone"), ("adresse", "address"),
        ("nom", "name"), ("description", "description"), ("titre", "title"),
        ("contenu", "content") ]),
    ("de",
      [ ("erstellen", "create"), ("anzeigen", "show"), ("ausblenden", "hide"),
        ("aktualisieren", "update"), ("löschen", "delete"), ("hinzufügen", "add"),
        ("suchen", "search"), ("speichern", "save"), ("abbrechen", "cancel"),
        ("fortfahren", "continue"), ("seite", "page"), ("formular", "form"),
        ("schaltfläche", "button"), ("link", "link"), ("liste", "list"),
        ("tabelle", "table"), ("menü", "menu"), ("benutzer", "user"),
        ("passwort", "password"), ("email", "email"), ("telefon", "phone"),
        ("adresse", "address"), ("name", "name"), ("beschreibung", "description"),
        ("titel", "title"), ("inhalt", "content") ]) ]

/-- `translateWithRules`. -/
def translateWithRules (text sourceLanguage : String) : Option String :=
  match mapGet sourceLanguage commonTranslations with
  | none => none
  | some translations =>
    let translatedText :=
      translations.foldl (fun t fe => t.replace fe.1 fe.2) (jsToLowerStr text)
    if translatedText ≠ jsToLowerStr text then some translatedText else none

/-- JS truthiness-plus-difference test `x && x !== text` for a
`string | null` value. -/
def truthyAndNe (o : Option String) (text : String) : Bool :=
  match o with
  | some s => s ≠ "" && s ≠ text
  | none => false

/-- `attemptTranslation`: Grok, then Google, then rules, then the passthrough
fallback that appends the instruction suffix. -/
def attemptTranslation (grok google : Option String) (text detectedLanguage : String) :
    String :=
  if truthyAndNe grok text then grok.getD ""
  else if truthyAndNe google text then google.getD ""
  else
    let ruleBasedTranslation := translateWithRules text detectedLanguage
    if truthyAndNe ruleBasedTranslation text then ruleBasedTranslation.getD ""
    else text ++ " (Please translate to English)"

/-- `translateToEnglish`. -/
def translateToEnglish (grok google : Option String) (text : String) : TranslationResult :=
  if text = "" ∨ (jsTrim text).length = 0 then
    { originalText := text, translatedText := text, originalLanguage := "unknown",
      originalLanguageName := "Unknown", wasTranslated := false, confidence := 0 }
  else
    let detection := detectLanguage text
    if detection.isEnglish || !detection.needsTranslation then
      { originalText := text, translatedText := text,
        originalLanguage := detection.language,
        originalLanguageName := getLanguageName detection.language,
        wasTranslated := false, confidence := detection.confidence }
    else
      let translatedText := attemptTranslation grok google text detection.language
      { originalText := text, translatedText := translatedText,
        originalLanguage := detection.language,
        originalLanguageName := getLanguageName detection.language,
        wasTranslated := translatedText ≠ text, confidence := detection.confidence }

/-- Number of fetch attempts recorded in a request trace. -/
def countAttempts (evs : List ReqEvent) : Nat :=
  evs.countP (fun e => match e with | .attempt _ => true | _ => false)

/-- Serialization half of `createCacheKey`: `JSON.stringify` of the
normalized content tuple, with the object-literal key order. -/
def serializeNormalized
    (n : String × Nat × String × List String × List String × List String ×
      List String × List String) : String :=
  "\x7b\"input\":" ++ jsonStr n.1 ++ ",\"wordLimit\":" ++ toString n.2.1 ++
  ",\"selectorPath\":" ++ jsonStr n.2.2.1 ++
  ",\"techStack\":\x7b\"frontend\":" ++ jsonArr n.2.2.2.1 ++
  ",\"backend\":" ++ jsonArr n.2.2.2.2.1 ++
  ",\"database\":" ++ jsonArr n.2.2.2.2.2.1 ++
  ",\"tools\":" ++ jsonArr n.2.2.2.2.2.2.1 ++
  ",\"uiComponents\":" ++ jsonArr n.2.2.2.2.2.2.2 ++ "\x7d\x7d"

/-! Order-theoretic facts about the UTF-16 string order, needed to show that
`Array.prototype.sort` maps permutations of a list to one canonical result. -/

theorem charKey_injective {a b : Char} (h : charKey a = charKey b) : a = b := by
  have hab : a.toNat = b.toNat := by
    unfold charKey at h
    rw [Prod.ext_iff] at h
    by_cases ha : a.toNat < 0x10000 <;> by_cases hb : b.toNat < 0x10000 <;>
      simp only [ha, hb, if_pos, if_neg, if_true, if_false, reduceIte] at h <;>
    · obtain ⟨h1, h2⟩ := h
      have da := Nat.div_add_mod (a.toNat - 0x10000) 0x400
      have db := Nat.div_add_mod (b.toNat - 0x10000) 0x400
      omega
  exact Char.eq_of_val_eq (UInt32.ext hab)

theorem keyLtB_iff (a b : Char) : keyLtB a b = true ↔
    ((charKey a).1 < (charKey b).1 ∨
      ((charKey a).1 = (charKey b).1 ∧ (charKey a).2 < (charKey b).2)) := by
  unfold keyLtB
  simp [Bool.or_eq_true, Bool.and_eq_true, decide_eq_true_eq]

theorem charKey_eq_iff (a b : Char) : charKey a = charKey b ↔
    ((charKey a).1 = (charKey b).1 ∧ (charKey a).2 = (charKey b).2) :=
  Prod.ext_iff

theorem u16LeB_total : ∀ as bs : List Char, u16LeB as bs = true ∨ u16LeB bs as = true
  | [], _ => by left; rfl
  | _ :: _, [] => by right; rfl
  | a :: as, b :: bs => by
    by_cases hlt : keyLtB a b = true
    · left; simp [u16LeB, hlt]
    · by_cases hgt : keyLtB b a = true
      · right; simp [u16LeB, hgt]
      · have hk : charKey a = charKey b := by
          rw [charKey_eq_iff]
          rw [keyLtB_iff] at hlt hgt
          omega
        rcases u16LeB_total as bs with ih | ih
        · left; simp [u16LeB, hk, ih]
        · right; simp [u16LeB, hk.symm, ih]

theorem u16LeB_antisymm : ∀ as bs : List Char,
    u16LeB as bs = true → u16LeB bs as = true → as = bs
  | [], [], _, _ => rfl
  | [], _ :: _, _, h2 => by simp [u16LeB] at h2
  | _ :: _, [], h1, _ => by simp [u16LeB] at h1
  | a :: as, b :: bs, h1, h2 => by
    simp only [u16LeB, Bool.or_eq_true, Bool.and_eq_true, decide_eq_true_eq] at h1 h2
    have hk : charKey a = charKey b := by
      rcases h1 with h1 | ⟨hk1, _⟩
      · exfalso
        rcases h2 with h2 | ⟨hk2, _⟩
        · rw [keyLtB_iff] at h1 h2; omega
        · rw [keyLtB_iff] at h1
          have := Prod.ext_iff.mp hk2
          omega
      · exact hk1
    have hab : a = b := charKey_injective hk
    have htl : as = bs := by
      rcases h1 with h1 | ⟨_, h1⟩
      · rw [keyLtB_iff] at h1; rw [charKey_eq_iff] at hk; omega
      · rcases h2 with h2 | ⟨_, h2⟩
        · rw [keyLtB_iff] at h2; rw [charKey_eq_iff] at hk; omega
        · exact u16LeB_antisymm as bs h1 h2
    rw [hab, htl]

theorem u16LeB_trans : ∀ as bs cs : List Char,
    u16LeB as bs = true → u16LeB bs cs = true → u16LeB as cs = true
  | [], _, _, _, _ => rfl
  | _ :: _, [], _, h1, _ => by simp [u16LeB] at h1
  | _ :: _, _ :: _, [], _, h2 => by simp [u16LeB] at h2
  | a :: as, b :: bs, c :: cs, h1, h2 => by
    simp only [u16LeB, Bool.or_eq_true, Bool.and_eq_true, decide_eq_true_eq] at h1 h2 ⊢
    rcases h1 with h1 | ⟨hk1, h1⟩
    · rcases h2 with h2 | ⟨hk2, _⟩
      · left; rw [keyLtB_iff] at *; omega
      · left; rw [keyLtB_iff] at *; rw [charKey_eq_iff] at hk2; omega
    · rcases h2 with h2 | ⟨hk2, h2⟩
      · left; rw [keyLtB_iff] at *; rw [charKey_eq_iff] at hk1; omega
      · exact Or.inr ⟨hk1.trans hk2, u16LeB_trans as bs cs h1 h2⟩

theorem jsStrLe_total (a b : String) : (jsStrLe a b || jsStrLe b a) = true := by
  rcases u16LeB_total a.data b.data with h | h <;> simp [jsStrLe, h]

theorem jsStrLe_trans {a b c : String} (h1 : jsStrLe a b = true) (h2 : jsStrLe b c = true) :
    jsStrLe a c = true :=
  u16LeB_trans _ _ _ h1 h2

theorem jsStrLe_antisymm {a b : String} (h1 : jsStrLe a b = true) (h2 : jsStrLe b a = true) :
    a = b := by
  have hd := u16LeB_antisymm a.data b.data h1 h2
  cases a; cases b; exact congrArg String.mk hd

/-- `Array.prototype.sort()` is a canonical form: sorting any permutation of a
list of strings yields the same result.  (The comparison is a linear order, so
the sorted permutation is unique.) -/
theorem jsSort_eq_of_perm {xs ys : List String} (h : xs.Perm ys) : jsSort xs = jsSort ys := by
  have hs1 := @List.sorted_mergeSort String jsStrLe
    (fun a b c hab hbc => jsStrLe_trans hab hbc)
    (fun a b => jsStrLe_total a b) xs
  have hs2 := @List.sorted_mergeSort String jsStrLe
    (fun a b c hab hbc => jsStrLe_trans hab hbc)
    (fun a b => jsStrLe_total a b) ys
  have hperm : (jsSort xs).Perm (jsSort ys) :=
    ((List.mergeSort_perm xs jsStrLe).trans h).trans (List.mergeSort_perm ys jsStrLe).symm
  haveI : IsAntisymm String (fun a b => jsStrLe a b = true) :=
    ⟨fun _ _ h1 h2 => jsStrLe_antisymm h1 h2⟩
  exact List.eq_of_perm_of_sorted hperm hs1 hs2


theorem consumeWord_length : ∀ (ws ts : List Char) (c : Char) (rest : List Char) (l : Char),
    consumeWord ws ts c = some (rest, l) → rest.length ≤ ts.length
  | [], ts, c, rest, l => by
    intro h
    simp only [consumeWord, Option.some.injEq, Prod.mk.injEq] at h
    rw [← h.1]
  | _ :: _, [], _, _, _ => by
    intro h
    simp [consumeWord] at h
  | wc :: ws', tc :: ts', c, rest, l => by
    intro h
    simp only [consumeWord] at h
    split at h
    · have := consumeWord_length ws' ts' tc rest l h
      simp only [List.length_cons]
      omega
    · exact absurd h (by simp)

theorem tryWord_length {w : List Char} {c : Char} {cs rest : List Char} {l : Char}
    (h : tryWord w (c :: cs) = some (rest, l)) : rest.length ≤ cs.length := by
  match w with
  | [] => simp [tryWord] at h
  | wc :: ws =>
    simp only [tryWord] at h
    split at h
    · exact consumeWord_length ws cs c rest l h
    · exact absurd h (by simp)

theorem tryWords_length : ∀ (ws : List (List Char)) {c : Char} {cs rest : List Char} {l : Char},
    tryWords ws (c :: cs) = some (rest, l) → rest.length ≤ cs.length
  | [], c, cs, rest, l => by intro h; simp [tryWords] at h
  | w :: ws', c, cs, rest, l => by
    intro h
    simp only [tryWords] at h
    cases hw : tryWord w (c :: cs) with
    | none =>
      rw [hw] at h
      exact tryWords_length ws' h
    | some pr =>
      rw [hw] at h
      obtain ⟨r, lastc⟩ := pr
      by_cases hb : isBoundary (some lastc) r.head? = true
      · simp only [hb, if_true] at h
        obtain ⟨h1, _⟩ := Prod.mk.injEq .. ▸ Option.some.injEq .. ▸ h
        exact h1 ▸ tryWord_length hw
      · simp only [Bool.not_eq_true] at hb
        simp only [hb, Bool.false_eq_true, if_false] at h
        exact tryWords_length ws' h


/-- The scan result does not depend on the fuel, as long as the fuel covers
the text length. -/
theorem countWordsGo_congr (ws : List (List Char)) :
    ∀ (f1 : Nat) (f2 : Nat) (t : List Char) (prev : Option Char),
      t.length ≤ f1 → t.length ≤ f2 →
      countWordsGo ws f1 t prev = countWordsGo ws f2 t prev
  | 0, f2, t, prev => by
    intro h1 _
    have : t = [] := List.length_eq_zero.mp (Nat.le_zero.mp h1)
    subst this
    cases f2 <;> rfl
  | f1 + 1, f2, [], prev => by
    intro _ h2
    cases f2 <;> rfl
  | f1 + 1, f2, c :: cs, prev => by
    intro h1 h2
    match f2 with
    | 0 => exact absurd h2 (by simp)
    | f2 + 1 =>
      simp only [countWordsGo]
      by_cases hb : isBoundary prev (some c) = true
      · simp only [hb, if_true]
        cases htw : tryWords ws (c :: cs) with
        | none =>
          exact countWordsGo_congr ws f1 f2 cs (some c) (by simpa using h1) (by simpa using h2)
        | some pr =>
          obtain ⟨rest, lastc⟩ := pr
          have hr := tryWords_length ws htw
          have heq := countWordsGo_congr ws f1 f2 rest (some lastc)
            (by simp at h1; omega) (by simp at h2; omega)
          simp [heq]
      · simp only [Bool.not_eq_true] at hb
        simp only [hb, Bool.false_eq_true, if_false]
        exact countWordsGo_congr ws f1 f2 cs (some c) (by simpa using h1) (by simpa using h2)


/-! ## Facts about the `Map` model -/

theorem mapGet_mapSet_self {κ β : Type} [DecidableEq κ] (k : κ) (v : β) :
    ∀ m : List (κ × β), mapGet k (mapSet k v m) = some v
  | [] => by simp [mapGet, mapSet]
  | (a, b) :: t => by
    by_cases h : a = k
    · simp [mapSet, h, mapGet]
    · simp [mapSet, h, mapGet, mapGet_mapSet_self k v t]

theorem mapGet_mapSet_ne {κ β : Type} [DecidableEq κ] {k k' : κ} (v : β) (hne : k' ≠ k) :
    ∀ m : List (κ × β), mapGet k' (mapSet k v m) = mapGet k' m
  | [] => by simp [mapGet, mapSet, Ne.symm hne]
  | (a, b) :: t => by
    by_cases h : a = k
    · subst h
      simp [mapSet, mapGet, Ne.symm hne]
    · simp [mapSet, h, mapGet, mapGet_mapSet_ne v hne t]

theorem mapGet_mapDelete_self {κ β : Type} [DecidableEq κ] (k : κ) :
    ∀ m : List (κ × β), mapGet k (mapDelete k m) = none
  | [] => by simp [mapGet, mapDelete]
  | (a, b) :: t => by
    by_cases h : a = k
    · simpa [mapDelete, h] using mapGet_mapDelete_self k t
    · simpa [mapDelete, h, mapGet] using mapGet_mapDelete_self k t

theorem mapGet_mapDelete_ne {κ β : Type} [DecidableEq κ] {k k' : κ} (hne : k' ≠ k) :
    ∀ m : List (κ × β), mapGet k' (mapDelete k m) = mapGet k' m
  | [] => by simp [mapGet, mapDelete]
  | (a, b) :: t => by
    by_cases h : a = k
    · subst h
      simpa [mapDelete, mapGet, Ne.symm hne] using mapGet_mapDelete_ne hne t
    · by_cases h' : a = k'
      · simp [mapDelete, h, mapGet, h', hne]
      · simpa [mapDelete, h, mapGet, h'] using mapGet_mapDelete_ne hne t

theorem length_mapSet_le {κ β : Type} [DecidableEq κ] (k : κ) (v : β) :
    ∀ m : List (κ × β), (mapSet k v m).length ≤ m.length + 1
  | [] => by simp [mapSet]
  | (a, b) :: t => by
    by_cases h : a = k
    · simp [mapSet, h]
    · simpa [mapSet, h] using length_mapSet_le k v t

theorem length_mapDelete_le {κ β : Type} [DecidableEq κ] (k : κ) :
    ∀ m : List (κ × β), (mapDelete k m).length ≤ m.length
  | [] => by simp [mapDelete]
  | (a, b) :: t => by
    by_cases h : a = k
    · simp only [mapDelete, h, if_true, List.length_cons]
      exact le_trans (length_mapDelete_le k t) (Nat.le_succ _)
    · simpa [mapDelete, h] using length_mapDelete_le k t

theorem length_mapDelete_head {κ β : Type} [DecidableEq κ] (k : κ) (b : β)
    (t : List (κ × β)) : (mapDelete k ((k, b) :: t)).length ≤ t.length := by
  simpa [mapDelete] using length_mapDelete_le k t

/-- Deletion of an absent key is the identity. -/
theorem mapDelete_not_mem {κ β : Type} [DecidableEq κ] {k : κ} :
    ∀ {m : List (κ × β)}, k ∉ m.map Prod.fst → mapDelete k m = m
  | [], _ => rfl
  | (a, b) :: t, hk => by
    simp only [List.map_cons, List.mem_cons] at hk
    push_neg at hk
    simp [mapDelete, Ne.symm hk.1, mapDelete_not_mem hk.2]

/-- On a duplicate-free map (every reachable JS `Map`), deleting the first
key removes exactly the first entry. -/
theorem mapDelete_head_nodup {κ β : Type} [DecidableEq κ] {k : κ} {b : β}
    {t : List (κ × β)} (hnodup : (((k, b) :: t).map Prod.fst).Nodup) :
    mapDelete k ((k, b) :: t) = t := by
  simp only [List.map_cons, List.nodup_cons] at hnodup
  simp [mapDelete, mapDelete_not_mem hnodup.1]

/-- When `APICache.get` misses (absent or expired), the key is absent from
the cache afterwards. -/
theorem apiCacheGet_none_mapGet {st : ClientState} {now : Nat} {key : String}
    (h : (apiCacheGet st now key).1 = none) :
    mapGet key ((apiCacheGet st now key).2).cache = none := by
  unfold apiCacheGet at h ⊢
  cases hm : mapGet key st.cache with
  | none => simp [hm]
  | some entry =>
    simp only [hm] at h ⊢
    by_cases hexp : now - entry.timestamp > entry.ttl
    · simp [hexp, mapGet_mapDelete_self]
    · simp [hexp] at h

/-! ## Facts about the orchestrator's state and the retrying transport -/

theorem pushHistory_cache (st : ClientState) (m : PerformanceMetrics) :
    (pushHistory st m).cache = st.cache := rfl

/-- An `AbortError` (the per-attempt timeout) makes `makeRequest` throw the
timeout error immediately: no retry, whatever the remaining budget. -/
theorem makeRequestFrom_abort {f : Nat → FetchResult} {jitter : Nat → ℚ} {attempt : Nat}
    (hab : f attempt = .abort) :
    makeRequestFrom f jitter attempt =
      (.error "Request timeout - please try again", [.attempt attempt]) := by
  unfold makeRequestFrom
  rw [hab]

/-- A non-abort failure on the last allowed attempt propagates its error. -/
theorem makeRequestFrom_stop {f : Nat → FetchResult} {jitter : Nat → ℚ} {attempt : Nat}
    {msg : String} (hmsg : thrownMessage (f attempt) = some msg) (hab : f attempt ≠ .abort)
    (hge : MAX_RETRIES ≤ attempt) :
    makeRequestFrom f jitter attempt = (.error msg, [.attempt attempt]) := by
  unfold makeRequestFrom
  cases hf : f attempt with
  | abort => exact absurd hf hab
  | ok data =>
    rw [hf] at hmsg
    simp only [hmsg, hge, dite_true]
  | netError m =>
    rw [hf] at hmsg
    simp only [thrownMessage, Option.some.injEq] at hmsg
    simp only [hge, dite_true, hmsg]
  | httpError s e =>
    rw [hf] at hmsg
    simp only [thrownMessage, Option.some.injEq] at hmsg
    simp only [hge, dite_true, hmsg]

/-- A non-abort failure with budget left sleeps the backoff delay and
retries. -/
theorem makeRequestFrom_retry {f : Nat → FetchResult} {jitter : Nat → ℚ} {attempt : Nat}
    {msg : String} (hmsg : thrownMessage (f attempt) = some msg) (hab : f attempt ≠ .abort)
    (hlt : attempt < MAX_RETRIES) :
    makeRequestFrom f jitter attempt =
      ((makeRequestFrom f jitter (attempt + 1)).1,
        .attempt attempt :: .sleep (getRetryDelay jitter attempt) ::
          (makeRequestFrom f jitter (attempt + 1)).2) := by
  have hnot : ¬MAX_RETRIES ≤ attempt := Nat.not_le.mpr hlt
  conv_lhs => rw [makeRequestFrom]
  cases hf : f attempt with
  | abort => exact absurd hf hab
  | ok data =>
    rw [hf] at hmsg
    simp only [hmsg, hnot, dite_false]
  | netError m => simp only [hnot, dite_false]
  | httpError s e => simp only [hnot, dite_false]

theorem countAttempts_cons_attempt (n : Nat) (evs : List ReqEvent) :
    countAttempts (.attempt n :: evs) = countAttempts evs + 1 := by
  simp [countAttempts, List.countP_cons]

theorem countAttempts_cons_sleep (ms : ℚ) (evs : List ReqEvent) :
    countAttempts (.sleep ms :: evs) = countAttempts evs := by
  simp [countAttempts, List.countP_cons]

/-- Whatever the transport does, `makeRequestFrom` never makes more than
`MAX_RETRIES + 1 - attempt` (bounded below by one) fetch attempts — the retry
recursion always terminates within the budget. -/
theorem makeRequestFrom_attempts_le (f : Nat → FetchResult) (jitter : Nat → ℚ) :
    ∀ (k attempt : Nat), MAX_RETRIES - attempt ≤ k →
      countAttempts (makeRequestFrom f jitter attempt).2 ≤ k + 1 := by
  intro k
  induction k with
  | zero =>
    intro attempt hk
    have hge : MAX_RETRIES ≤ attempt := by omega
    unfold makeRequestFrom
    cases f attempt with
    | abort => simp [countAttempts]
    | ok data =>
      cases htm : thrownMessage (.ok data) with
      | none => simp [htm, countAttempts]
      | some m => simp [htm, hge, countAttempts]
    | netError m => simp [hge, countAttempts]
    | httpError s e => simp [hge, countAttempts]
  | succ k ih =>
    intro attempt hk
    by_cases hge : MAX_RETRIES ≤ attempt
    · unfold makeRequestFrom
      cases f attempt with
      | abort => simp [countAttempts]
      | ok data =>
        cases htm : thrownMessage (.ok data) with
        | none => simp [htm, countAttempts]
        | some m => simp [htm, hge, countAttempts]
      | netError m => simp [hge, countAttempts]
      | httpError s e => simp [hge, countAttempts]
    · have hrec := ih (attempt + 1) (by omega)
      unfold makeRequestFrom
      cases f attempt with
      | abort => simp [countAttempts]
      | ok data =>
        cases htm : thrownMessage (.ok data) with
        | none => simp [htm, countAttempts]
        | some m =>
          simp only [htm, hge, dite_false, countAttempts_cons_attempt, countAttempts_cons_sleep]
          omega
      | netError m =>
        simp only [hge, dite_false, countAttempts_cons_attempt, countAttempts_cons_sleep]
        omega
      | httpError s e =>
        simp only [hge, dite_false, countAttempts_cons_attempt, countAttempts_cons_sleep]
        omega

/-- `requestWithRetry` loop: a failing final attempt throws its error. -/
theorem requestWithRetryFrom_stop {g : Nat → ServerFetch} {attempts : Nat} {delay : ℚ}
    {attempt : Nat} {msg : String} (hmsg : serverThrownMessage (g attempt) = some msg)
    (heq : attempt = attempts) :
    requestWithRetryFrom g attempts delay attempt = (.error msg, [.attempt attempt]) := by
  subst heq
  have hnot : ¬attempt < attempt := by omega
  unfold requestWithRetryFrom
  rw [dif_neg hnot]
  cases hg : g attempt with
  | ok payload =>
    rw [hg] at hmsg
    simp only [hmsg, if_pos rfl, if_true]
  | httpError s t =>
    rw [hg] at hmsg
    simp only [serverThrownMessage, Option.some.injEq] at hmsg
    have h429 : ¬(s = 429 ∧ attempt < attempt) := by omega
    simp only [h429, if_false, if_pos rfl, if_true, hmsg]
  | netError m =>
    rw [hg] at hmsg
    simp only [serverThrownMessage, Option.some.injEq] at hmsg
    simp only [if_pos rfl, if_true, hmsg]

/-- `requestWithRetry` loop: a failing attempt with budget left sleeps
`delay * attempt` and continues (both through the 429 fast path and through
the `catch`). -/
theorem requestWithRetryFrom_retry {g : Nat → ServerFetch} {attempts : Nat} {delay : ℚ}
    {attempt : Nat} {msg : String} (hmsg : serverThrownMessage (g attempt) = some msg)
    (hlt : attempt < attempts) :
    requestWithRetryFrom g attempts delay attempt =
      ((requestWithRetryFrom g attempts delay (attempt + 1)).1,
        .attempt attempt :: .sleep (delay * attempt) ::
          (requestWithRetryFrom g attempts delay (attempt + 1)).2) := by
  have hnot : ¬attempts < attempt := by omega
  have hne : ¬attempt = attempts := by omega
  conv_lhs => rw [requestWithRetryFrom]
  cases hg : g attempt with
  | ok payload =>
    rw [hg] at hmsg
    simp only [hnot, dite_false, hmsg, hne, if_false]
  | httpError s t =>
    by_cases h429 : s = 429 ∧ attempt < attempts
    · simp [hnot, h429]
    · simp [hnot, h429, hne]
  | netError m =>
    simp only [hnot, dite_false, hne, if_false]

/-- The concrete run used by several witnesses: a transport that always
answers HTTP 500 is attempted three times and surfaces the status error. -/
theorem makeRequest_const_http500 :
    makeRequest (fun _ : Nat => FetchResult.httpError 500 none) (fun _ : Nat => (0 : ℚ)) =
      (.error "API request failed with status 500",
        [.attempt 1, .sleep (getRetryDelay (fun _ : Nat => (0 : ℚ)) 1), .attempt 2,
          .sleep (getRetryDelay (fun _ : Nat => (0 : ℚ)) 2), .attempt 3]) := by
  have h1 := @makeRequestFrom_retry (fun _ => FetchResult.httpError 500 none)
    (fun _ => (0 : ℚ)) 1 "API request failed with status 500" rfl (by simp) (by decide)
  have h2 := @makeRequestFrom_retry (fun _ => FetchResult.httpError 500 none)
    (fun _ => (0 : ℚ)) 2 "API request failed with status 500" rfl (by simp) (by decide)
  have h3 := @makeRequestFrom_stop (fun _ => FetchResult.httpError 500 none)
    (fun _ => (0 : ℚ)) 3 "API request failed with status 500" rfl (by simp) (by decide)
  rw [makeRequest, h1, h2, h3]

/-! ## Concrete language-detection runs -/

theorem detect_ru_privet :
    detectLanguage "привет как дела" =
      { language := "ru", confidence := 1/15, isEnglish := false, needsTranslation := false } := by
  have hscores : languageScoresNat (jsTrim "привет как дела").data =
      [("en", 0), ("es", 0), ("fr", 0), ("de", 0), ("it", 0), ("pt", 0), ("ru", 1),
        ("zh", 0), ("ja", 0), ("ko", 0), ("ar", 0), ("hi", 0)] := by decide
  have hlen : (jsTrim "привет как дела").data.length = 15 := by decide
  rw [detectLanguage, if_neg (by decide)]
  simp only []
  rw [hscores, hlen]
  simp only [List.map, List.foldl]
  norm_num
  exact ⟨by decide, fun _ => by norm_num [CONFIDENCE_THRESHOLD]⟩

theorem detect_en_stopwords :
    detectLanguage "the and of in on" =
      { language := "en", confidence := 7/16, isEnglish := true, needsTranslation := false } := by
  have hscores : languageScoresNat (jsTrim "the and of in on").data =
      [("en", 7), ("es", 0), ("fr", 0), ("de", 1), ("it", 1), ("pt", 0), ("ru", 0),
        ("zh", 0), ("ja", 0), ("ko", 0), ("ar", 0), ("hi", 0)] := by decide
  have hlen : (jsTrim "the and of in on").data.length = 16 := by decide
  rw [detectLanguage, if_neg (by decide)]
  simp only []
  rw [hscores, hlen]
  simp only [List.map, List.foldl]
  norm_num

theorem detect_single_a :
    detectLanguage "a" =
      { language := "en", confidence := 2, isEnglish := true, needsTranslation := false } := by
  have hscores : languageScoresNat (jsTrim "a").data =
      [("en", 2), ("es", 0), ("fr", 0), ("de", 0), ("it", 1), ("pt", 1), ("ru", 0),
        ("zh", 0), ("ja", 0), ("ko", 0), ("ar", 0), ("hi", 0)] := by decide
  have hlen : (jsTrim "a").data.length = 1 := by decide
  rw [detectLanguage, if_neg (by decide)]
  simp only []
  rw [hscores, hlen]
  simp only [List.map, List.foldl]
  norm_num

theorem detect_zh_shenme :
    detectLanguage "什么" =
      { language := "zh", confidence := 1/2, isEnglish := false, needsTranslation := true } := by
  have hscores : languageScoresNat (jsTrim "什么").data =
      [("en", 0), ("es", 0), ("fr", 0), ("de", 0), ("it", 0), ("pt", 0), ("ru", 0),
        ("zh", 1), ("ja", 1), ("ko", 0), ("ar", 0), ("hi", 0)] := by decide
  have hlen : (jsTrim "什么").data.length = 2 := by decide
  rw [detectLanguage, if_neg (by decide)]
  simp only []
  rw [hscores, hlen]
  simp only [List.map, List.foldl]
  norm_num
  constructor
  · decide
  · norm_num [CONFIDENCE_THRESHOLD]

/-- The best-score fold of `detectLanguage` never goes below its (nonnegative)
starting accumulator. -/
theorem foldBest_nonneg :
    ∀ (l : List (String × ℚ)) (acc : String × ℚ), 0 ≤ acc.2 →
      0 ≤ (l.foldl (fun acc ls => if ls.2 > acc.2 then ls else acc) acc).2
  | [], _, h => h
  | ls :: rest, acc, h => by
    simp only [List.foldl]
    by_cases hgt : ls.2 > acc.2
    · rw [if_pos hgt]
      exact foldBest_nonneg rest ls (le_of_lt (lt_of_le_of_lt h hgt))
    · rw [if_neg hgt]
      exact foldBest_nonneg rest acc h

theorem append_suffix_ne (text suffix : String) (hs : suffix ≠ "") : text ++ suffix ≠ text := by
  intro h
  have hl := congrArg String.length h
  rw [String.length_append] at hl
  have : suffix.length = 0 := by omega
  exact hs (by
    cases suffix with
    | mk data =>
      cases data with
      | nil => rfl
      | cons c cs => simp [String.length] at this)

/-- `createCacheKey` factors through the normalized content. -/
theorem createCacheKey_eq_serialize (p : EnhancePromptParams) :
    createCacheKey p = serializeNormalized (normalizedContent p) := rfl

/-! ## The claims -/

/-- C1: if `deduplicate(k, op)` is called while an operation for `k` is in
flight, the caller gets the already-registered promise and the underlying
operation is not invoked again (a fresh call logs exactly one invocation);
all concurrent callers hold the same promise and hence read the identical
settled outcome, success or error; and settlement removes the in-flight
registration for `k` unconditionally, so a subsequent call invokes the
operation afresh. -/
theorem c1_deduplicate_contract {ε α : Type} (s : DedupState ε α) (key : String)
    (p : Nat) (o : Except ε α) (hin : mapGet key s.pending = some p) :
    deduplicate s key = (s, p)
    ∧ (∀ (s' : DedupState ε α) (k' : String), mapGet k' s'.pending = none →
        (deduplicate s' k').1.invocations = s'.invocations ++ [(k', s'.nextId)])
    ∧ outcomeOf (settleKey s key o) p = some o
    ∧ mapGet key (settleKey s key o).pending = none
    ∧ (deduplicate (settleKey s key o) key).1.invocations =
        (settleKey s key o).invocations ++ [(key, (settleKey s key o).nextId)] := by
  have h4 : mapGet key (settleKey s key o).pending = none := by
    simp [settleKey, hin, mapGet_mapDelete_self]
  refine ⟨by simp [deduplicate, hin], fun s' k' h => by simp [deduplicate, h], ?_, h4, ?_⟩
  · simp [settleKey, hin, outcomeOf, mapGet_mapSet_self]
  · simp [deduplicate, h4]

theorem c1_witness :
    mapGet "k" ([("k", 0)] : List (String × Nat)) = some 0
    ∧ (deduplicate (⟨[("k", 0)], [], [("k", 0)], 1⟩ : DedupState String Nat) "k" =
        (⟨[("k", 0)], [], [("k", 0)], 1⟩, 0)
      ∧ (∀ (s' : DedupState String Nat) (k' : String), mapGet k' s'.pending = none →
          (deduplicate s' k').1.invocations = s'.invocations ++ [(k', s'.nextId)])
      ∧ outcomeOf (settleKey (⟨[("k", 0)], [], [("k", 0)], 1⟩ : DedupState String Nat)
          "k" (Except.ok 42)) 0 = some (Except.ok 42)
      ∧ mapGet "k" (settleKey (⟨[("k", 0)], [], [("k", 0)], 1⟩ : DedupState String Nat)
          "k" (Except.ok 42)).pending = none
      ∧ (deduplicate (settleKey (⟨[("k", 0)], [], [("k", 0)], 1⟩ : DedupState String Nat)
          "k" (Except.ok 42)) "k").1.invocations =
          (settleKey (⟨[("k", 0)], [], [("k", 0)], 1⟩ : DedupState String Nat)
            "k" (Except.ok 42)).invocations ++
            [("k", (settleKey (⟨[("k", 0)], [], [("k", 0)], 1⟩ : DedupState String Nat)
              "k" (Except.ok 42)).nextId)]) :=
  ⟨by decide, c1_deduplicate_contract _ "k" 0 (Except.ok 42) (by decide)⟩

/-- C2: `createCacheKey` is a pure deterministic function of the request
parameters; permuting the elements inside any tech-stack category lists
leaves the fingerprint unchanged; and two requests with equal normalized
content (trimmed, lowercased free text, sorted category lists) have equal
fingerprints. -/
theorem c2_fingerprint (p q : EnhancePromptParams)
    (hinput : q.userInput = p.userInput) (hwl : q.wordLimit = p.wordLimit)
    (hsel : q.selectorPath = p.selectorPath)
    (hf : q.techStack.frontend.Perm p.techStack.frontend)
    (hb : q.techStack.backend.Perm p.techStack.backend)
    (hd : q.techStack.database.Perm p.techStack.database)
    (ht : q.techStack.tools.Perm p.techStack.tools)
    (hu : q.techStack.uiComponents.Perm p.techStack.uiComponents) :
    createCacheKey p = createCacheKey p
    ∧ createCacheKey q = createCacheKey p
    ∧ (∀ r s : EnhancePromptParams, normalizedContent r = normalizedContent s →
        createCacheKey r = createCacheKey s) := by
  have hnorm : ∀ r s : EnhancePromptParams, normalizedContent r = normalizedContent s →
      createCacheKey r = createCacheKey s := fun r s h => by
    rw [createCacheKey_eq_serialize, createCacheKey_eq_serialize, h]
  refine ⟨rfl, ?_, hnorm⟩
  apply hnorm
  unfold normalizedContent
  rw [hinput, hwl, hsel, jsSort_eq_of_perm hf, jsSort_eq_of_perm hb, jsSort_eq_of_perm hd,
    jsSort_eq_of_perm ht, jsSort_eq_of_perm hu]

theorem c2_witness :
    ("Hi" = "Hi" ∧ (100 : Nat) = 100 ∧ (none : Option String) = none
      ∧ (["Angular", "React"] : List String).Perm ["React", "Angular"]
      ∧ ([] : List String).Perm [] ∧ ([] : List String).Perm []
      ∧ ([] : List String).Perm [] ∧ ([] : List String).Perm [])
    ∧ createCacheKey ⟨"Hi", 100, none, ⟨["Angular", "React"], [], [], [], []⟩⟩ =
        createCacheKey ⟨"Hi", 100, none, ⟨["React", "Angular"], [], [], [], []⟩⟩ :=
  ⟨⟨rfl, rfl, rfl, by decide, by decide, by decide, by decide, by decide⟩,
    (c2_fingerprint ⟨"Hi", 100, none, ⟨["React", "Angular"], [], [], [], []⟩⟩
      ⟨"Hi", 100, none, ⟨["Angular", "React"], [], [], [], []⟩⟩
      rfl rfl rfl (by decide) (by decide) (by decide) (by decide) (by decide)).2.1⟩

/-- C3: immediately after `APICache.set(k, v, ttl)` (same `Date.now()`),
`get(k)` returns `v`; and once the elapsed time exceeds `ttl`, `get(k)`
returns `null` and removes the expired entry from the cache. -/
theorem c3_cache_set_get (st : ClientState) (now later : Nat) (k : String)
    (v : EnhancedResult) (ttl : Nat) (hexp : later - now > ttl) :
    (apiCacheGet (apiCacheSet st now k v ttl) now k).1 = some v
    ∧ (apiCacheGet (apiCacheSet st now k v ttl) later k).1 = none
    ∧ mapGet k ((apiCacheGet (apiCacheSet st now k v ttl) later k).2).cache = none := by
  have hset : mapGet k (apiCacheSet st now k v ttl).cache = some ⟨v, now, ttl⟩ :=
    mapGet_mapSet_self k _ _
  refine ⟨?_, ?_, ?_⟩
  · simp [apiCacheGet, hset]
  · simp [apiCacheGet, hset, hexp]
  · simp [apiCacheGet, hset, hexp, mapGet_mapDelete_self]

theorem c3_witness :
    (10 : Nat) - 0 > 5
    ∧ (apiCacheGet (apiCacheSet ⟨[], 100, 0, 0, []⟩ 0 "k"
        ⟨"y", none, ⟨0, 0, 0, false, false, none⟩, false⟩ 5) 0 "k").1 =
        some ⟨"y", none, ⟨0, 0, 0, false, false, none⟩, false⟩
    ∧ (apiCacheGet (apiCacheSet ⟨[], 100, 0, 0, []⟩ 0 "k"
        ⟨"y", none, ⟨0, 0, 0, false, false, none⟩, false⟩ 5) 10 "k").1 = none
    ∧ mapGet "k" ((apiCacheGet (apiCacheSet ⟨[], 100, 0, 0, []⟩ 0 "k"
        ⟨"y", none, ⟨0, 0, 0, false, false, none⟩, false⟩ 5) 10 "k").2).cache = none :=
  ⟨by decide, c3_cache_set_get ⟨[], 100, 0, 0, []⟩ 0 10 "k" _ 5 (by decide)⟩

/-- C4: every cache operation preserves the at-most-`MAX_CACHE_SIZE` (= 100)
invariant (`get`/`cleanup` only shrink, `clear` empties), and `set` on a full
duplicate-free cache evicts exactly the single oldest-inserted entry before
inserting the new one (insertion-order eviction). -/
theorem c4_capacity (st : ClientState) (now : Nat) (k : String) (v : EnhancedResult)
    (ttl : Nat) :
    (st.maxSize = MAX_CACHE_SIZE → st.cache.length ≤ MAX_CACHE_SIZE →
      (apiCacheSet st now k v ttl).cache.length ≤ MAX_CACHE_SIZE)
    ∧ ((apiCacheGet st now k).2).cache.length ≤ st.cache.length
    ∧ (apiCacheClear st).cache.length = 0
    ∧ (apiCacheCleanup st now).cache.length ≤ st.cache.length
    ∧ (∀ (k0 : String) (e0 : CacheEntry) (rest : List (String × CacheEntry)),
        st.cache = (k0, e0) :: rest → (st.cache.map Prod.fst).Nodup →
        st.cache.length ≥ st.maxSize →
        (apiCacheSet st now k v ttl).cache = mapSet k ⟨v, now, ttl⟩ rest) := by
  refine ⟨?_, ?_, ?_, ?_, ?_⟩
  · intro hmax hlen
    by_cases hcap : st.cache.length ≥ st.maxSize
    · cases hc : st.cache with
      | nil =>
        exfalso
        rw [hc] at hcap
        simp [hmax, MAX_CACHE_SIZE] at hcap
      | cons kv t =>
        obtain ⟨k0, e0⟩ := kv
        have hres : (apiCacheSet st now k v ttl).cache
            = mapSet k ⟨v, now, ttl⟩ (mapDelete k0 st.cache) := by
          unfold apiCacheSet
          rw [hc]
          have hcap2 : ((k0, e0) :: t).length ≥ st.maxSize := hc ▸ hcap
          simp only [hcap2, if_true, List.head?]
        rw [hres]
        have h2 := length_mapSet_le k (CacheEntry.mk v now ttl) (mapDelete k0 st.cache)
        have h1 : (mapDelete k0 st.cache).length ≤ t.length := by
          rw [hc]; exact length_mapDelete_head k0 e0 t
        have h3 : st.cache.length = t.length + 1 := by rw [hc]; simp
        omega
    · unfold apiCacheSet
      simp only [hcap, if_false]
      have h2 := length_mapSet_le k (CacheEntry.mk v now ttl) st.cache
      omega
  · unfold apiCacheGet
    cases hm : mapGet k st.cache with
    | none => simp
    | some entry =>
      by_cases hexp : now - entry.timestamp > entry.ttl
      · simpa [hexp] using length_mapDelete_le k st.cache
      · simp [hexp]
  · simp [apiCacheClear]
  · simpa [apiCacheCleanup] using List.length_filter_le _ st.cache
  · intro k0 e0 rest hc hnodup hcap
    unfold apiCacheSet
    rw [hc] at hnodup hcap
    simp only [hc, hcap, if_true, List.head?, mapDelete_head_nodup hnodup]

theorem c4_witness :
    ((⟨[], MAX_CACHE_SIZE, 0, 0, []⟩ : ClientState).maxSize = MAX_CACHE_SIZE
      ∧ (⟨[], MAX_CACHE_SIZE, 0, 0, []⟩ : ClientState).cache.length ≤ MAX_CACHE_SIZE
      ∧ (apiCacheSet ⟨[], MAX_CACHE_SIZE, 0, 0, []⟩ 0 "k"
          ⟨"y", none, ⟨0, 0, 0, false, false, none⟩, false⟩ 5).cache.length ≤ MAX_CACHE_SIZE)
    ∧ ((⟨[("a", ⟨⟨"y", none, ⟨0, 0, 0, false, false, none⟩, false⟩, 0, 5⟩)], 1, 0, 0, []⟩ :
          ClientState).cache =
            ("a", ⟨⟨"y", none, ⟨0, 0, 0, false, false, none⟩, false⟩, 0, 5⟩) :: []
      ∧ (apiCacheSet
          ⟨[("a", ⟨⟨"y", none, ⟨0, 0, 0, false, false, none⟩, false⟩, 0, 5⟩)], 1, 0, 0, []⟩
          3 "k" ⟨"z", none, ⟨0, 0, 0, false, false, none⟩, false⟩ 7).cache =
          mapSet "k" ⟨⟨"z", none, ⟨0, 0, 0, false, false, none⟩, false⟩, 3, 7⟩ []) :=
  ⟨⟨rfl, by decide,
      (c4_capacity ⟨[], MAX_CACHE_SIZE, 0, 0, []⟩ 0 "k" _ 5).1 rfl (by decide)⟩,
    ⟨rfl,
      (c4_capacity
          ⟨[("a", ⟨⟨"y", none, ⟨0, 0, 0, false, false, none⟩, false⟩, 0, 5⟩)], 1, 0, 0, []⟩
          3 "k" _ 7).2.2.2.2 "a" _ [] rfl (by decide) (by decide)⟩⟩

/-- C5: against a transport whose every attempt fails with a retryable
(non-timeout) error, `makeRequest` makes exactly `MAX_RETRIES = 3` attempts
with a positive backoff sleep between consecutive ones, then propagates the
third attempt's error; for any transport at all the attempt count stays
within the budget (termination); and the server-side `requestWithRetry` with
`attempts = 3`, `delay = 750` likewise makes exactly three attempts and
surfaces the last error. -/
theorem c5_retry_bound (f : Nat → FetchResult) (jitter : Nat → ℚ)
    (hfail : ∀ n, f n ≠ .abort ∧ thrownMessage (f n) ≠ none)
    (hjit : ∀ n, 0 ≤ jitter n) :
    (∃ msg, thrownMessage (f 3) = some msg ∧
      makeRequest f jitter = (.error msg,
        [.attempt 1, .sleep (getRetryDelay jitter 1), .attempt 2,
          .sleep (getRetryDelay jitter 2), .attempt 3]))
    ∧ countAttempts (makeRequest f jitter).2 = MAX_RETRIES
    ∧ 0 < getRetryDelay jitter 1 ∧ 0 < getRetryDelay jitter 2
    ∧ (∀ (g : Nat → FetchResult) (j : Nat → ℚ),
        countAttempts (makeRequest g j).2 ≤ MAX_RETRIES)
    ∧ (∀ g : Nat → ServerFetch, (∀ n, serverThrownMessage (g n) ≠ none) →
        ∃ msg, serverThrownMessage (g 3) = some msg ∧
          requestWithRetry g = (.error msg,
            [.attempt 1, .sleep 750, .attempt 2, .sleep 1500, .attempt 3])) := by
  obtain ⟨hab1, hm1⟩ := hfail 1
  obtain ⟨hab2, hm2⟩ := hfail 2
  obtain ⟨hab3, hm3⟩ := hfail 3
  cases ht1 : thrownMessage (f 1) with
  | none => exact absurd ht1 hm1
  | some m1 =>
  cases ht2 : thrownMessage (f 2) with
  | none => exact absurd ht2 hm2
  | some m2 =>
  cases ht3 : thrownMessage (f 3) with
  | none => exact absurd ht3 hm3
  | some m3 =>
  have h1 := @makeRequestFrom_retry f jitter 1 m1 ht1 hab1 (by decide)
  have h2 := @makeRequestFrom_retry f jitter 2 m2 ht2 hab2 (by decide)
  have h3 := @makeRequestFrom_stop f jitter 3 m3 ht3 hab3 (by decide)
  have htrace : makeRequest f jitter = (.error m3,
      [.attempt 1, .sleep (getRetryDelay jitter 1), .attempt 2,
        .sleep (getRetryDelay jitter 2), .attempt 3]) := by
    rw [makeRequest, h1, h2, h3]
  refine ⟨⟨m3, rfl, htrace⟩, ?_, ?_, ?_, ?_, ?_⟩
  · rw [htrace]
    simp [countAttempts, List.countP_cons, MAX_RETRIES]
  · have := hjit 1
    simp only [getRetryDelay, RETRY_DELAY]
    norm_num
    linarith
  · have := hjit 2
    simp only [getRetryDelay, RETRY_DELAY]
    norm_num
    linarith
  · intro g j
    have := makeRequestFrom_attempts_le g j 2 1 (by decide)
    rw [makeRequest]
    simpa [MAX_RETRIES] using this
  · intro g hgfail
    cases hs1 : serverThrownMessage (g 1) with
    | none => exact absurd hs1 (hgfail 1)
    | some n1 =>
    cases hs2 : serverThrownMessage (g 2) with
    | none => exact absurd hs2 (hgfail 2)
    | some n2 =>
    cases hs3 : serverThrownMessage (g 3) with
    | none => exact absurd hs3 (hgfail 3)
    | some n3 =>
    have s1 := @requestWithRetryFrom_retry g 3 750 1 n1 hs1 (by decide)
    have s2 := @requestWithRetryFrom_retry g 3 750 2 n2 hs2 (by decide)
    have s3 := @requestWithRetryFrom_stop g 3 750 3 n3 hs3 rfl
    refine ⟨n3, rfl, ?_⟩
    rw [requestWithRetry, s1, s2, s3]
    norm_num

theorem c5_witness :
    (∀ n : Nat, (fun _ : Nat => FetchResult.httpError 500 none) n ≠ FetchResult.abort ∧
        thrownMessage ((fun _ : Nat => FetchResult.httpError 500 none) n) ≠ none)
    ∧ (∀ n : Nat, (0 : ℚ) ≤ (fun _ : Nat => (0 : ℚ)) n)
    ∧ (∃ msg, thrownMessage ((fun _ : Nat => FetchResult.httpError 500 none) 3) = some msg ∧
        makeRequest (fun _ : Nat => FetchResult.httpError 500 none) (fun _ : Nat => (0 : ℚ)) =
          (.error msg,
            [.attempt 1, .sleep (getRetryDelay (fun _ : Nat => (0 : ℚ)) 1), .attempt 2,
              .sleep (getRetryDelay (fun _ : Nat => (0 : ℚ)) 2), .attempt 3])) :=
  ⟨fun _ => ⟨by simp, by simp [thrownMessage]⟩, fun _ => le_refl 0,
    (c5_retry_bound (fun _ => FetchResult.httpError 500 none) (fun _ => (0 : ℚ))
      (fun _ => ⟨by simp, by simp [thrownMessage]⟩) (fun _ => le_refl 0)).1⟩

/-- C6 (amended): a timeout (`AbortError`) aborts only the specific in-flight
attempt, but it is NOT treated as a retryable transport failure: `makeRequest`
converts it into the error "Request timeout - please try again" and
propagates it immediately after that single attempt, regardless of the
remaining retry budget; the logical call is not cancelled — it returns this
error value to its caller. -/
theorem c6_timeout_single_attempt (f : Nat → FetchResult) (jitter : Nat → ℚ) (attempt : Nat)
    (habort : f attempt = .abort) :
    makeRequestFrom f jitter attempt =
      (.error "Request timeout - please try again", [.attempt attempt])
    ∧ countAttempts (makeRequestFrom f jitter attempt).2 = 1 :=
  ⟨makeRequestFrom_abort habort, by
    rw [makeRequestFrom_abort habort]
    simp [countAttempts]⟩

theorem c6_witness :
    (fun _ : Nat => FetchResult.abort) 1 = FetchResult.abort
    ∧ (makeRequestFrom (fun _ : Nat => FetchResult.abort) (fun _ : Nat => (0 : ℚ)) 1 =
        (.error "Request timeout - please try again", [.attempt 1])
      ∧ countAttempts (makeRequestFrom (fun _ : Nat => FetchResult.abort)
          (fun _ : Nat => (0 : ℚ)) 1).2 = 1) :=
  ⟨rfl, c6_timeout_single_attempt (fun _ => FetchResult.abort) (fun _ => (0 : ℚ)) 1 rfl⟩

/-- C6 counterexample: with the full retry budget remaining (1 <
`MAX_RETRIES`), a first-attempt timeout produces exactly one attempt and the
timeout error — the claim that a timeout "is treated as a transport failure
for retry purposes" and "proceeds to retry" is false on the code. -/
theorem c6_counterexample :
    (makeRequest (fun _ => FetchResult.abort) (fun _ => (0 : ℚ))).1 =
        .error "Request timeout - please try again"
    ∧ countAttempts (makeRequest (fun _ => FetchResult.abort) (fun _ => (0 : ℚ))).2 = 1
    ∧ 1 < MAX_RETRIES := by
  have h := @makeRequestFrom_abort (fun _ => FetchResult.abort) (fun _ => (0 : ℚ)) 1 rfl
  rw [makeRequest, h]
  exact ⟨rfl, by simp [countAttempts], by decide⟩

/-- C7: when the (deduplicated) transport operation inside
`enhancePromptOptimized` fails on a cache miss, the error is propagated to
the caller and nothing is cached — afterwards the fingerprint maps to no
cache entry at all, so in particular to none it did not map to before. -/
theorem c7_failure_not_cached (st : ClientState) (params : EnhancePromptParams)
    (f : Nat → FetchResult) (jitter : Nat → ℚ) (now : Nat) (t0 t1 : ℚ) (e : String)
    (herr : (makeRequest f jitter).1 = .error e)
    (hmiss : (apiCacheGet st now (createCacheKey params)).1 = none) :
    (enhancePromptOptimized st params f jitter now t0 t1).1 = .error e
    ∧ mapGet (createCacheKey params)
        ((enhancePromptOptimized st params f jitter now t0 t1).2).cache = none
    ∧ (∀ v, mapGet (createCacheKey params)
          ((enhancePromptOptimized st params f jitter now t0 t1).2).cache = some v →
        mapGet (createCacheKey params) st.cache = some v) := by
  have hafter := apiCacheGet_none_mapGet hmiss
  cases hget : apiCacheGet st now (createCacheKey params) with
  | mk o st1 =>
    rw [hget] at hmiss hafter
    simp only at hmiss hafter
    subst hmiss
    unfold enhancePromptOptimized
    simp only [hget, herr, pushHistory_cache]
    exact ⟨trivial, hafter, fun v hv => by rw [hafter] at hv; exact absurd hv (by simp)⟩

theorem c7_witness :
    (makeRequest (fun _ : Nat => FetchResult.httpError 500 none) (fun _ : Nat => (0 : ℚ))).1 =
        Except.error "API request failed with status 500"
    ∧ (apiCacheGet ⟨[], 100, 0, 0, []⟩ 0
        (createCacheKey ⟨"x", 100, none, ⟨[], [], [], [], []⟩⟩)).1 = none
    ∧ ((enhancePromptOptimized ⟨[], 100, 0, 0, []⟩ ⟨"x", 100, none, ⟨[], [], [], [], []⟩⟩
          (fun _ => FetchResult.httpError 500 none) (fun _ => (0 : ℚ)) 0 0 1).1 =
        Except.error "API request failed with status 500"
      ∧ mapGet (createCacheKey ⟨"x", 100, none, ⟨[], [], [], [], []⟩⟩)
          ((enhancePromptOptimized ⟨[], 100, 0, 0, []⟩ ⟨"x", 100, none, ⟨[], [], [], [], []⟩⟩
            (fun _ => FetchResult.httpError 500 none) (fun _ => (0 : ℚ)) 0 0 1).2).cache = none
      ∧ (∀ v, mapGet (createCacheKey ⟨"x", 100, none, ⟨[], [], [], [], []⟩⟩)
            ((enhancePromptOptimized ⟨[], 100, 0, 0, []⟩ ⟨"x", 100, none, ⟨[], [], [], [], []⟩⟩
              (fun _ => FetchResult.httpError 500 none) (fun _ => (0 : ℚ)) 0 0 1).2).cache =
              some v →
          mapGet (createCacheKey ⟨"x", 100, none, ⟨[], [], [], [], []⟩⟩)
            (⟨[], 100, 0, 0, []⟩ : ClientState).cache = some v)) :=
  ⟨congrArg Prod.fst makeRequest_const_http500, by simp [apiCacheGet, mapGet],
    c7_failure_not_cached ⟨[], 100, 0, 0, []⟩ ⟨"x", 100, none, ⟨[], [], [], [], []⟩⟩
      (fun _ => FetchResult.httpError 500 none) (fun _ => (0 : ℚ)) 0 0 1
      "API request failed with status 500"
      (congrArg Prod.fst makeRequest_const_http500) (by simp [apiCacheGet, mapGet])⟩

/-- C8 (amended): `detectLanguage "the and of in on"` yields language `"en"`
(confidence 7/16) with `needsTranslation = false`; and
`detectLanguage "привет как дела"` yields the non-English language `"ru"`,
but with `needsTranslation = false`, because its score — one match of the
non-global Cyrillic class over 15 characters, 1/15 — does not exceed the 0.3
confidence threshold. -/
theorem c8_language_boundary :
    detectLanguage "the and of in on" =
      { language := "en", confidence := 7/16, isEnglish := true, needsTranslation := false }
    ∧ detectLanguage "привет как дела" =
      { language := "ru", confidence := 1/15, isEnglish := false, needsTranslation := false } :=
  ⟨detect_en_stopwords, detect_ru_privet⟩

/-- C8 counterexample: on the claim's own Cyrillic input the code returns
`needsTranslation = false`, not `true`. -/
theorem c8_counterexample :
    (detectLanguage "привет как дела").language = "ru"
    ∧ (detectLanguage "привет как дела").needsTranslation = false
    ∧ ¬((detectLanguage "привет как дела").needsTranslation = true) := by
  rw [detect_ru_privet]
  exact ⟨rfl, rfl, by simp⟩

set_option maxRecDepth 4000 in
/-- C9 (amended): the confidence computed by `detectLanguage` — and the
`confidence` field of every `TranslationResult` of `translateToEnglish` — is
always nonnegative, but it is not bounded by 1. -/
theorem c9_confidence_nonneg (text : String) (grok google : Option String) :
    0 ≤ (detectLanguage text).confidence
    ∧ 0 ≤ (translateToEnglish grok google text).confidence := by
  have hdet : 0 ≤ (detectLanguage text).confidence := by
    rw [detectLanguage]
    split
    · exact le_refl 0
    · exact foldBest_nonneg _ _ (le_refl 0)
  refine ⟨hdet, ?_⟩
  rw [translateToEnglish]
  split
  · exact le_refl 0
  · simp only []
    split
    · exact hdet
    · exact hdet

/-- C9 counterexample: the single-character input `"a"` scores 2 matches over
1 character, so the returned confidence is 2 — outside `[0, 1]` — and
`translateToEnglish` reports the same out-of-range confidence. -/
theorem c9_counterexample :
    (detectLanguage "a").confidence = 2
    ∧ ¬((detectLanguage "a").confidence ≤ 1)
    ∧ (translateToEnglish none none "a").confidence = 2 := by
  refine ⟨by rw [detect_single_a], by rw [detect_single_a]; norm_num, ?_⟩
  rw [translateToEnglish, if_neg (by decide)]
  simp [detect_single_a]

/-- C10: `translateToEnglish` reports `wasTranslated = true` exactly when the
returned `translatedText` differs from the original text; in particular, when
every translation strategy fails to change the text on a translation-worthy
input, the returned text is the original with
`" (Please translate to English)"` appended, so `wasTranslated` is `true`
even though no actual translation occurred. -/
theorem c10_wasTranslated_iff (grok google : Option String) (text : String) :
    ((translateToEnglish grok google text).wasTranslated = true ↔
      (translateToEnglish grok google text).translatedText ≠
        (translateToEnglish grok google text).originalText)
    ∧ (truthyAndNe grok text = false → truthyAndNe google text = false →
        truthyAndNe (translateWithRules text (detectLanguage text).language) text = false →
        (detectLanguage text).isEnglish = false →
        (detectLanguage text).needsTranslation = true →
        (translateToEnglish grok google text).translatedText =
          text ++ " (Please translate to English)"
        ∧ (translateToEnglish grok google text).wasTranslated = true) := by
  rw [translateToEnglish]
  by_cases hempty : text = "" ∨ (jsTrim text).length = 0
  · rw [if_pos hempty]
    constructor
    · simp
    · intro _ _ _ _ h5
      rw [detectLanguage, if_pos hempty] at h5
      simp at h5
  · rw [if_neg hempty]
    simp only []
    by_cases hskip :
        ((detectLanguage text).isEnglish || !(detectLanguage text).needsTranslation) = true
    · rw [if_pos hskip]
      constructor
      · simp
      · intro _ _ _ h4 h5
        rw [h4, h5] at hskip
        simp at hskip
    · rw [if_neg hskip]
      constructor
      · simp only [decide_eq_true_eq]
      · intro h1 h2 h3 _ _
        have hatt : attemptTranslation grok google text (detectLanguage text).language =
            text ++ " (Please translate to English)" := by
          rw [attemptTranslation]
          rw [h1, h2]
          simp only [Bool.false_eq_true, if_false]
          rw [h3]
          simp
        refine ⟨hatt, ?_⟩
        simp only [hatt, decide_eq_true_eq]
        exact append_suffix_ne text " (Please translate to English)" (by decide)

theorem c10_witness :
    truthyAndNe none "什么" = false
    ∧ truthyAndNe none "什么" = false
    ∧ truthyAndNe (translateWithRules "什么" (detectLanguage "什么").language) "什么" = false
    ∧ (detectLanguage "什么").isEnglish = false
    ∧ (detectLanguage "什么").needsTranslation = true
    ∧ ((translateToEnglish none none "什么").wasTranslated = true ↔
        (translateToEnglish none none "什么").translatedText ≠
          (translateToEnglish none none "什么").originalText)
    ∧ (translateToEnglish none none "什么").translatedText =
        "什么" ++ " (Please translate to English)" :=
  have h3 : truthyAndNe (translateWithRules "什么" (detectLanguage "什么").language) "什么"
      = false := by
    rw [detect_zh_shenme]
    rfl
  have h4 : (detectLanguage "什么").isEnglish = false := by rw [detect_zh_shenme]
  have h5 : (detectLanguage "什么").needsTranslation = true := by rw [detect_zh_shenme]
  ⟨rfl, rfl, h3, h4, h5,
    (c10_wasTranslated_iff none none "什么").1,
    ((c10_wasTranslated_iff none none "什么").2 rfl rfl h3 h4 h5).1⟩

end Prompter
